import Mathlib

/-!
# Verification of the st0x-rest-api admission layer

Shallow embedding of the request-admission layer of the repository:
the sliding-window rate limiter (`src/fairings/rate_limiter.rs`), the
Basic-auth credential authenticator (`src/auth.rs`), the error catchers
and responders (`src/catchers.rs`, `src/error.rs`), the usage logger
(`src/fairings/usage_logger.rs`), and the protected-route request
pipeline they form (`src/routes/tokens.rs`).

Conventions of the embedding:
* `Instant` timestamps and unix timestamps are `Nat` (seconds); the
  window duration constant 60 is inlined where the source uses
  `WINDOW_DURATION`.  Rust's `saturating_duration_since` and
  `now - WINDOW_DURATION` become truncated `Nat` subtraction.
* A `VecDeque<Instant>` window is a `List Nat` whose head is the front
  of the deque.
* The `HashMap<i64, VecDeque<Instant>>` of per-key windows is an
  association list `List (Int × List Nat)` with unique keys, together
  with the `AtomicU64` check counter.
* Fallible operations return `Except ApiError`; a poisoned `Mutex` is a
  boolean input to the check functions (the lock itself is external
  state).
* Rust byte strings (header values, decoded credentials) are `List Nat`
  of their UTF-8 bytes.
-/

namespace St0x

/-- `ApiError` from `src/error.rs`. -/
inductive ApiError where
  | badRequest (msg : String)
  | unauthorized (msg : String)
  | notFound (msg : String)
  | internal (msg : String)
  | rateLimited (msg : String)
deriving Repr, DecidableEq

/-- `RateLimitInfo` from `src/fairings/rate_limiter.rs`. -/
structure RateLimitInfo where
  limit : Nat
  remaining : Nat
  reset : Nat
deriving Repr, DecidableEq

/-- `RateLimiter::prune_window`: pop timestamps strictly older than
`cutoff` from the front of the window. -/
def prune_window (window : List Nat) (cutoff : Nat) : List Nat :=
  match window with
  | [] => []
  | t :: rest => if t < cutoff then prune_window rest cutoff else t :: rest

/-- `RateLimiter::compute_reset`: the wall-clock time (`nowUnix`) plus the
time until the oldest window entry leaves the window (saturating), or a
full window duration for an empty window. -/
def compute_reset (window : List Nat) (now nowUnix : Nat) : Nat :=
  match window with
  | [] => nowUnix + 60
  | oldest :: _ => nowUnix + ((oldest + 60) - now)

/-- `RateLimiter::check_global`.  State passing: the global window is an
explicit argument and the updated window is part of the result.
`poisoned` models the state of the `Mutex` around the window.  The
source's local `cutoff`/`window` bindings are inlined. -/
def check_global (global_rpm : Nat) (poisoned : Bool) (window : List Nat)
    (now nowUnix : Nat) : Except ApiError (Bool × Option RateLimitInfo × List Nat) :=
  if global_rpm = 0 then
    .ok (true, none, window)
  else if poisoned then
    .error (.internal "rate limiter unavailable")
  else if (prune_window window (now - 60)).length < global_rpm then
    .ok (true,
      some ⟨global_rpm,
        global_rpm - (prune_window window (now - 60) ++ [now]).length,
        compute_reset (prune_window window (now - 60) ++ [now]) now nowUnix⟩,
      prune_window window (now - 60) ++ [now])
  else
    .ok (false,
      some ⟨global_rpm, 0, compute_reset (prune_window window (now - 60)) now nowUnix⟩,
      prune_window window (now - 60))

/-- The per-key window map (`HashMap<i64, VecDeque<Instant>>`) as an
association list, plus the `AtomicU64` per-key check counter. -/
structure PerKeyState where
  windows : List (Int × List Nat)
  checkCount : Nat
deriving Repr, DecidableEq

/-- `HashMap::get` on the association list. -/
def lookupWindow (ws : List (Int × List Nat)) (key : Int) : Option (List Nat) :=
  match ws with
  | [] => none
  | (k, w) :: rest => if k = key then some w else lookupWindow rest key

/-- `HashMap` insert/overwrite on the association list. -/
def setWindow (ws : List (Int × List Nat)) (key : Int) (w : List Nat) :
    List (Int × List Nat) :=
  match ws with
  | [] => [(key, w)]
  | (k, w0) :: rest =>
    if k = key then (k, w) :: rest else (k, w0) :: setWindow rest key w

/-- The amortized cleanup sweep (`windows.retain`): prune every window and
drop entries whose window became empty. -/
def retainNonEmpty (cutoff : Nat) (ws : List (Int × List Nat)) :
    List (Int × List Nat) :=
  match ws with
  | [] => []
  | (k, w) :: rest =>
    if (prune_window w cutoff).isEmpty then retainNonEmpty cutoff rest
    else (k, prune_window w cutoff) :: retainNonEmpty cutoff rest

/-- `PER_KEY_CLEANUP_EVERY` from `src/fairings/rate_limiter.rs`. -/
def PER_KEY_CLEANUP_EVERY : Nat := 1024

/-- The per-key map as seen by a check: the counter is incremented after
the lock is acquired (`fetch_add` returns the old value, so the check
count observed is `checkCount + 1`), and the cleanup sweep
(`windows.retain`) runs on every `PER_KEY_CLEANUP_EVERY`-th check. -/
def perKeyWindows (st : PerKeyState) (cutoff : Nat) : List (Int × List Nat) :=
  if (st.checkCount + 1) % PER_KEY_CLEANUP_EVERY = 0 then
    retainNonEmpty cutoff st.windows
  else
    st.windows

/-- The window of `keyId` a per-key check decides on:
`windows.entry(key_id).or_default()` followed by `prune_window`. -/
def perKeyWindow (st : PerKeyState) (keyId : Int) (cutoff : Nat) : List Nat :=
  prune_window ((lookupWindow (perKeyWindows st cutoff) keyId).getD []) cutoff

/-- `RateLimiter::check_per_key`.  The pruned (and, when admitted, pushed)
window of `keyId` is written back to the map in both branches. -/
def check_per_key (per_key_rpm : Nat) (poisoned : Bool) (st : PerKeyState)
    (keyId : Int) (now nowUnix : Nat) :
    Except ApiError (Bool × Option RateLimitInfo × PerKeyState) :=
  if per_key_rpm = 0 then
    .ok (true, none, st)
  else if poisoned then
    .error (.internal "rate limiter unavailable")
  else if (perKeyWindow st keyId (now - 60)).length < per_key_rpm then
    .ok (true,
      some ⟨per_key_rpm,
        per_key_rpm - (perKeyWindow st keyId (now - 60) ++ [now]).length,
        compute_reset (perKeyWindow st keyId (now - 60) ++ [now]) now nowUnix⟩,
      ⟨setWindow (perKeyWindows st (now - 60)) keyId
          (perKeyWindow st keyId (now - 60) ++ [now]),
        st.checkCount + 1⟩)
  else
    .ok (false,
      some ⟨per_key_rpm, 0, compute_reset (perKeyWindow st keyId (now - 60)) now nowUnix⟩,
      ⟨setWindow (perKeyWindows st (now - 60)) keyId (perKeyWindow st keyId (now - 60)),
        st.checkCount + 1⟩)

/-! ## Basic lemmas about window pruning -/

theorem prune_window_id (w : List Nat) (c : Nat) (h : ∀ t ∈ w, c ≤ t) :
    prune_window w c = w := by
  cases w with
  | nil => rfl
  | cons t rest =>
    have ht : c ≤ t := h t (List.mem_cons_self t rest)
    simp [prune_window, Nat.not_lt.mpr ht]

theorem prune_window_subset (w : List Nat) (c : Nat) :
    ∀ s ∈ prune_window w c, s ∈ w := by
  induction w with
  | nil => simp [prune_window]
  | cons t rest ih =>
    intro s hs
    by_cases h : t < c
    · simp only [prune_window, if_pos h] at hs
      exact List.mem_cons_of_mem _ (ih s hs)
    · simp only [prune_window, if_neg h] at hs
      exact hs

theorem prune_window_pairwise (w : List Nat) (c : Nat)
    (h : List.Pairwise (· ≤ ·) w) : List.Pairwise (· ≤ ·) (prune_window w c) := by
  induction w with
  | nil => simp [prune_window]
  | cons t rest ih =>
    rcases List.pairwise_cons.mp h with ⟨hle, hrest⟩
    by_cases hlt : t < c
    · simpa only [prune_window, if_pos hlt] using ih hrest
    · simpa only [prune_window, if_neg hlt] using h

theorem prune_window_ge (w : List Nat) (c : Nat)
    (h : List.Pairwise (· ≤ ·) w) : ∀ s ∈ prune_window w c, c ≤ s := by
  induction w with
  | nil => simp [prune_window]
  | cons t rest ih =>
    rcases List.pairwise_cons.mp h with ⟨hle, hrest⟩
    by_cases hlt : t < c
    · simpa only [prune_window, if_pos hlt] using ih hrest
    · intro s hs
      simp only [prune_window, if_neg hlt] at hs
      rcases List.mem_cons.mp hs with rfl | hmem
      · exact Nat.not_lt.mp hlt
      · exact le_trans (Nat.not_lt.mp hlt) (hle s hmem)

theorem prune_window_length_le (w : List Nat) (c : Nat) :
    (prune_window w c).length ≤ w.length := by
  induction w with
  | nil => simp [prune_window]
  | cons t rest ih =>
    by_cases hlt : t < c
    · simp only [prune_window, if_pos hlt]
      exact le_trans ih (Nat.le_succ _)
    · simp [prune_window, if_neg hlt]

theorem prune_window_eq_filter (w : List Nat) (c : Nat)
    (h : List.Pairwise (· ≤ ·) w) :
    prune_window w c = w.filter (fun t => c ≤ t) := by
  induction w with
  | nil => rfl
  | cons t rest ih =>
    rcases List.pairwise_cons.mp h with ⟨hle, hrest⟩
    by_cases hlt : t < c
    · have : (decide (c ≤ t)) = false := by
        simp [Nat.not_le.mpr hlt]
      simp only [prune_window, if_pos hlt, List.filter_cons, this]
      exact ih hrest
    · have hct : c ≤ t := Nat.not_lt.mp hlt
      have : (decide (c ≤ t)) = true := by simp [hct]
      simp only [prune_window, if_neg hlt, List.filter_cons, this, if_pos]
      congr 1
      symm
      refine List.filter_eq_self.mpr ?_
      intro a ha
      simp [le_trans hct (hle a ha)]

theorem prune_window_idem (w : List Nat) (c : Nat)
    (h : List.Pairwise (· ≤ ·) w) :
    prune_window (prune_window w c) c = prune_window w c :=
  prune_window_id _ _ (prune_window_ge w c h)

/-! ## Claim C4: poisoned lock fails closed -/

/-- C4 (amended): for every scope whose configured limit is nonzero, a
check that finds the scope's lock poisoned returns the internal error
`rate limiter unavailable` (surfaced as HTTP 500), and in particular
never admits.  (With limit 0 the lock is never consulted: the check
short-circuits to an unconditional admit, see the counterexample.) -/
theorem c4_poisoned_lock_fails_closed (rpm : Nat) (hrpm : 0 < rpm)
    (w : List Nat) (st : PerKeyState) (keyId : Int) (now nowUnix : Nat) :
    check_global rpm true w now nowUnix
        = .error (.internal "rate limiter unavailable")
    ∧ check_per_key rpm true st keyId now nowUnix
        = .error (.internal "rate limiter unavailable") := by
  have h0 : ¬ rpm = 0 := Nat.pos_iff_ne_zero.mp hrpm
  constructor
  · simp [check_global, h0]
  · simp [check_per_key, h0]

/-- C4 witness: the amended theorem at limit 1. -/
theorem c4_poisoned_lock_fails_closed_witness :
    0 < 1
    ∧ check_global 1 true [] 0 0 = .error (.internal "rate limiter unavailable")
    ∧ check_per_key 1 true ⟨[], 0⟩ 1 0 0
        = .error (.internal "rate limiter unavailable") :=
  ⟨by decide, c4_poisoned_lock_fails_closed 1 (by decide) [] ⟨[], 0⟩ 1 0 0⟩

/-- C4 counterexample to the claim as stated: with configured limit 0 the
check short-circuits before touching the lock, so even with a poisoned
lock it returns `admitted = true` rather than an internal error. -/
theorem c4_poisoned_lock_disabled_admits :
    check_global 0 true [] 0 0 = .ok (true, none, [])
    ∧ check_per_key 0 true ⟨[], 0⟩ 1 0 0 = .ok (true, none, ⟨[], 0⟩) :=
  ⟨rfl, rfl⟩

/-! ## Claim C7: a full window admits again after expiry -/

/-- C7: for a scope (global or per-key) whose window is full (length equal
to the limit, hence rejecting), once the window duration has elapsed past
the oldest entry, a subsequent check evicts every timestamp strictly older
than `now - 60` (eviction is exactly a filter, for the sorted windows the
limiter builds) and therefore admits again. -/
theorem c7_window_expiry_readmits (rpm : Nat) (hrpm : 0 < rpm)
    (t0 : Nat) (rest : List Nat)
    (hsorted : List.Pairwise (· ≤ ·) (t0 :: rest))
    (hfull : (t0 :: rest).length = rpm)
    (now nowUnix : Nat) (hexp : t0 + 60 < now) (keyId : Int) (c : Nat) :
    prune_window (t0 :: rest) (now - 60)
        = (t0 :: rest).filter (fun t => now - 60 ≤ t)
    ∧ (∃ info w', check_global rpm false (t0 :: rest) now nowUnix
        = .ok (true, some info, w'))
    ∧ (∃ info st',
        check_per_key rpm false ⟨[(keyId, t0 :: rest)], c⟩ keyId now nowUnix
          = .ok (true, some info, st')) := by
  have h0 : ¬ rpm = 0 := Nat.pos_iff_ne_zero.mp hrpm
  have hcut : t0 < now - 60 := by omega
  have hshort : (prune_window (t0 :: rest) (now - 60)).length < rpm := by
    have h1 : prune_window (t0 :: rest) (now - 60) = prune_window rest (now - 60) := by
      simp [prune_window, hcut]
    have h2 := prune_window_length_le rest (now - 60)
    simp only [List.length_cons] at hfull
    rw [h1]
    omega
  refine ⟨prune_window_eq_filter _ _ hsorted, ?_, ?_⟩
  · exact ⟨_, _, by rw [check_global, if_neg h0, if_neg (by simp), if_pos hshort]⟩
  · have hpk : (perKeyWindow ⟨[(keyId, t0 :: rest)], c⟩ keyId (now - 60)).length < rpm := by
      rw [perKeyWindow, perKeyWindows]
      by_cases hclean : (c + 1) % PER_KEY_CLEANUP_EVERY = 0
      · rw [if_pos hclean]
        show (prune_window ((lookupWindow
            (retainNonEmpty (now - 60) [(keyId, t0 :: rest)]) keyId).getD [])
            (now - 60)).length < rpm
        rw [retainNonEmpty]
        by_cases hemp : (prune_window (t0 :: rest) (now - 60)).isEmpty
        · rw [if_pos hemp]
          simpa [retainNonEmpty, lookupWindow, prune_window] using hrpm
        · rw [if_neg hemp]
          have hl : lookupWindow ((keyId, prune_window (t0 :: rest) (now - 60)) ::
              retainNonEmpty (now - 60) []) keyId
              = some (prune_window (t0 :: rest) (now - 60)) := by
            simp [lookupWindow]
          rw [hl, Option.getD_some, prune_window_idem _ _ hsorted]
          exact hshort
      · rw [if_neg hclean]
        simpa [lookupWindow] using hshort
    exact ⟨_, _, by rw [check_per_key, if_neg h0, if_neg (by simp), if_pos hpk]⟩

/-- C7 witness: a window of two entries at time 0 with limit 2 rejects no
more once the check runs at time 70. -/
theorem c7_window_expiry_readmits_witness :
    prune_window [0, 0] (70 - 60) = List.filter (fun t => 70 - 60 ≤ t) [0, 0]
    ∧ (∃ info w', check_global 2 false [0, 0] 70 1000 = .ok (true, some info, w'))
    ∧ (∃ info st', check_per_key 2 false ⟨[(5, [0, 0])], 0⟩ 5 70 1000
        = .ok (true, some info, st')) :=
  c7_window_expiry_readmits 2 (by decide) 0 [0] (by decide) (by decide) 70 1000
    (by decide) 5 0

/-! ## Claim C2: within one window, exactly the first `L` checks admit -/

/-- A sequence of `check_global` calls on one limiter, recording the
admission flag and quota of each call and threading the window state.
Timestamps double as the wall clock; the reset value is not at issue. -/
def runGlobalChecks (rpm : Nat) (window : List Nat) :
    List Nat → List (Bool × Option RateLimitInfo)
  | [] => []
  | t :: ts =>
    match check_global rpm false window t t with
    | .ok (adm, info, w') => (adm, info) :: runGlobalChecks rpm w' ts
    | .error _ => []

/-- A sequence of `check_per_key` calls on one key, threading the map. -/
def runPerKeyChecks (rpm : Nat) (keyId : Int) (st : PerKeyState) :
    List Nat → List (Bool × Option RateLimitInfo)
  | [] => []
  | t :: ts =>
    match check_per_key rpm false st keyId t t with
    | .ok (adm, info, st') => (adm, info) :: runPerKeyChecks rpm keyId st' ts
    | .error _ => []

theorem check_global_admits (rpm : Nat) (h0 : 0 < rpm) (w : List Nat)
    (now nu : Nat) (hin : ∀ s ∈ w, now - 60 ≤ s) (hlen : w.length < rpm) :
    check_global rpm false w now nu
      = .ok (true, some ⟨rpm, rpm - (w ++ [now]).length,
          compute_reset (w ++ [now]) now nu⟩, w ++ [now]) := by
  rw [check_global, prune_window_id w (now - 60) hin,
    if_neg (Nat.pos_iff_ne_zero.mp h0), if_neg (by simp), if_pos hlen]

theorem check_global_reject (rpm : Nat) (h0 : 0 < rpm) (w : List Nat)
    (now nu : Nat) (hin : ∀ s ∈ w, now - 60 ≤ s) (hlen : ¬ w.length < rpm) :
    check_global rpm false w now nu
      = .ok (false, some ⟨rpm, 0, compute_reset w now nu⟩, w) := by
  rw [check_global, prune_window_id w (now - 60) hin,
    if_neg (Nat.pos_iff_ne_zero.mp h0), if_neg (by simp), if_neg hlen]

theorem runGlobal_all_admits (rpm a : Nat) :
    ∀ (ts w : List Nat), List.Pairwise (· ≤ ·) (w ++ ts) →
    (∀ t ∈ w ++ ts, a ≤ t ∧ t ≤ a + 60) →
    w.length + ts.length ≤ rpm →
    (runGlobalChecks rpm w ts).map Prod.fst = List.replicate ts.length true := by
  intro ts
  induction ts with
  | nil => intro w _ _ _; simp [runGlobalChecks]
  | cons t ts ih =>
    intro w hpair hbound hlen
    have h0 : 0 < rpm := by
      simp only [List.length_cons] at hlen; omega
    have hta : t ≤ a + 60 :=
      (hbound t (List.mem_append_right _ (List.mem_cons_self _ _))).2
    have hin : ∀ s ∈ w, t - 60 ≤ s := by
      intro s hs
      have hsa := (hbound s (List.mem_append_left _ hs)).1
      omega
    have hwlen : w.length < rpm := by
      simp only [List.length_cons] at hlen; omega
    have hstep : runGlobalChecks rpm w (t :: ts)
        = (true, some ⟨rpm, rpm - (w ++ [t]).length, compute_reset (w ++ [t]) t t⟩)
          :: runGlobalChecks rpm (w ++ [t]) ts := by
      rw [runGlobalChecks, check_global_admits rpm h0 w t t hin hwlen]
    rw [hstep]
    simp only [List.map_cons, List.length_cons, List.replicate_succ]
    congr 1
    refine ih (w ++ [t]) ?_ ?_ ?_
    · rw [← List.append_cons]; exact hpair
    · rw [← List.append_cons]; exact hbound
    · simp at hlen ⊢
      omega

theorem runGlobal_full_reject (rpm a : Nat) (h0 : 0 < rpm) :
    ∀ (ts w : List Nat), ts ≠ [] → List.Pairwise (· ≤ ·) (w ++ ts) →
    (∀ t ∈ w ++ ts, a ≤ t ∧ t ≤ a + 60) →
    w.length + ts.length = rpm + 1 →
    (runGlobalChecks rpm w ts).map Prod.fst
        = List.replicate (ts.length - 1) true ++ [false]
    ∧ ∃ r, (runGlobalChecks rpm w ts).getLast? = some (false, some r)
        ∧ r.limit = rpm ∧ r.remaining = 0 := by
  intro ts
  induction ts with
  | nil => intro w h; exact absurd rfl h
  | cons t ts ih =>
    intro w _ hpair hbound hlen
    have hta : t ≤ a + 60 :=
      (hbound t (List.mem_append_right _ (List.mem_cons_self _ _))).2
    have hin : ∀ s ∈ w, t - 60 ≤ s := by
      intro s hs
      have hsa := (hbound s (List.mem_append_left _ hs)).1
      omega
    cases ts with
    | nil =>
      have hwlen : ¬ w.length < rpm := by
        simp at hlen; omega
      have hstep : runGlobalChecks rpm w [t]
          = [(false, some ⟨rpm, 0, compute_reset w t t⟩)] := by
        rw [runGlobalChecks, check_global_reject rpm h0 w t t hin hwlen]
        simp [runGlobalChecks]
      rw [hstep]
      exact ⟨by simp, ⟨rpm, 0, compute_reset w t t⟩, by simp, rfl, rfl⟩
    | cons t' ts' =>
      have hwlen : w.length < rpm := by
        simp at hlen; omega
      have hstep : runGlobalChecks rpm w (t :: t' :: ts')
          = (true, some ⟨rpm, rpm - (w ++ [t]).length, compute_reset (w ++ [t]) t t⟩)
            :: runGlobalChecks rpm (w ++ [t]) (t' :: ts') := by
        rw [runGlobalChecks, check_global_admits rpm h0 w t t hin hwlen]
      rw [hstep]
      have hrec := ih (w ++ [t]) (by simp)
        (by rw [← List.append_cons]; exact hpair)
        (by rw [← List.append_cons]; exact hbound)
        (by simp at hlen ⊢; omega)
      rcases hrec with ⟨hmap, r, hlast, hlim, hrem⟩
      constructor
      · simp only [List.map_cons, hmap, List.length_cons]
        rw [show (ts'.length + 1 + 1 - 1) = (ts'.length + 1 - 1) + 1 by omega,
          List.replicate_succ]
        simp
      · refine ⟨r, ?_, hlim, hrem⟩
        cases hrun : runGlobalChecks rpm (w ++ [t]) (t' :: ts') with
        | nil => rw [hrun] at hmap; simp at hmap
        | cons x l =>
          rw [hrun] at hlast
          rw [List.getLast?_cons_cons]
          exact hlast

theorem perKeyWindows_nil (n c : Nat) : perKeyWindows ⟨[], n⟩ c = [] := by
  rw [perKeyWindows]
  split <;> rfl

theorem isEmpty_false_of_ne_nil {w : List Nat} (hne : w ≠ []) :
    ¬ w.isEmpty = true := by
  cases w with
  | nil => exact absurd rfl hne
  | cons a l => simp [List.isEmpty]

theorem perKeyWindows_single (key : Int) (w : List Nat) (n c : Nat)
    (hin : ∀ s ∈ w, c ≤ s) (hne : w ≠ []) :
    perKeyWindows ⟨[(key, w)], n⟩ c = [(key, w)] := by
  rw [perKeyWindows]
  split
  · rw [retainNonEmpty, prune_window_id w c hin,
      if_neg (isEmpty_false_of_ne_nil hne)]
    rfl
  · rfl

theorem perKeyWindow_nil (key : Int) (n c : Nat) :
    perKeyWindow ⟨[], n⟩ key c = [] := by
  rw [perKeyWindow, perKeyWindows_nil]
  rfl

theorem perKeyWindow_single (key : Int) (w : List Nat) (n c : Nat)
    (hin : ∀ s ∈ w, c ≤ s) (hne : w ≠ []) :
    perKeyWindow ⟨[(key, w)], n⟩ key c = w := by
  rw [perKeyWindow, perKeyWindows_single key w n c hin hne]
  simp [lookupWindow, prune_window_id w c hin]

theorem check_per_key_admit_nil (rpm : Nat) (h0 : 0 < rpm) (key : Int)
    (n now nu : Nat) :
    check_per_key rpm false ⟨[], n⟩ key now nu
      = .ok (true, some ⟨rpm, rpm - 1, compute_reset [now] now nu⟩,
          ⟨[(key, [now])], n + 1⟩) := by
  rw [check_per_key, if_neg (Nat.pos_iff_ne_zero.mp h0), if_neg (by simp),
    perKeyWindow_nil, perKeyWindows_nil, if_pos (by simpa using h0)]
  simp [setWindow]

theorem check_per_key_admit_single (rpm : Nat) (h0 : 0 < rpm) (key : Int)
    (w : List Nat) (n now nu : Nat) (hin : ∀ s ∈ w, now - 60 ≤ s)
    (hne : w ≠ []) (hlen : w.length < rpm) :
    check_per_key rpm false ⟨[(key, w)], n⟩ key now nu
      = .ok (true, some ⟨rpm, rpm - (w ++ [now]).length,
          compute_reset (w ++ [now]) now nu⟩, ⟨[(key, w ++ [now])], n + 1⟩) := by
  rw [check_per_key, if_neg (Nat.pos_iff_ne_zero.mp h0), if_neg (by simp),
    perKeyWindow_single key w n (now - 60) hin hne,
    perKeyWindows_single key w n (now - 60) hin hne, if_pos hlen]
  simp [setWindow]

theorem check_per_key_reject_single (rpm : Nat) (h0 : 0 < rpm) (key : Int)
    (w : List Nat) (n now nu : Nat) (hin : ∀ s ∈ w, now - 60 ≤ s)
    (hne : w ≠ []) (hlen : ¬ w.length < rpm) :
    check_per_key rpm false ⟨[(key, w)], n⟩ key now nu
      = .ok (false, some ⟨rpm, 0, compute_reset w now nu⟩,
          ⟨[(key, w)], n + 1⟩) := by
  rw [check_per_key, if_neg (Nat.pos_iff_ne_zero.mp h0), if_neg (by simp),
    perKeyWindow_single key w n (now - 60) hin hne,
    perKeyWindows_single key w n (now - 60) hin hne, if_neg hlen]
  simp [setWindow]

theorem runPerKey_all_admits (rpm a : Nat) (key : Int) :
    ∀ (ts w : List Nat) (n : Nat) (st : PerKeyState),
    (st = ⟨[], n⟩ ∧ w = [] ∨ st = ⟨[(key, w)], n⟩ ∧ w ≠ []) →
    List.Pairwise (· ≤ ·) (w ++ ts) →
    (∀ t ∈ w ++ ts, a ≤ t ∧ t ≤ a + 60) →
    w.length + ts.length ≤ rpm →
    (runPerKeyChecks rpm key st ts).map Prod.fst = List.replicate ts.length true := by
  intro ts
  induction ts with
  | nil => intro w n st _ _ _ _; simp [runPerKeyChecks]
  | cons t ts ih =>
    intro w n st hshape hpair hbound hlen
    have h0 : 0 < rpm := by simp at hlen; omega
    have hta : t ≤ a + 60 :=
      (hbound t (List.mem_append_right _ (List.mem_cons_self _ _))).2
    have hin : ∀ s ∈ w, t - 60 ≤ s := by
      intro s hs
      have hsa := (hbound s (List.mem_append_left _ hs)).1
      omega
    have hwlen : w.length < rpm := by simp at hlen; omega
    rcases hshape with ⟨rfl, rfl⟩ | ⟨rfl, hne⟩
    · have hstep : runPerKeyChecks rpm key ⟨[], n⟩ (t :: ts)
          = (true, some ⟨rpm, rpm - 1, compute_reset [t] t t⟩)
            :: runPerKeyChecks rpm key ⟨[(key, [t])], n + 1⟩ ts := by
        rw [runPerKeyChecks, check_per_key_admit_nil rpm h0 key n t t]
      rw [hstep]
      simp only [List.map_cons, List.length_cons, List.replicate_succ]
      congr 1
      refine ih [t] (n + 1) _ (Or.inr ⟨rfl, by simp⟩) ?_ ?_ ?_
      · simpa using hpair
      · simpa using hbound
      · simp at hlen ⊢; omega
    · have hstep : runPerKeyChecks rpm key ⟨[(key, w)], n⟩ (t :: ts)
          = (true, some ⟨rpm, rpm - (w ++ [t]).length, compute_reset (w ++ [t]) t t⟩)
            :: runPerKeyChecks rpm key ⟨[(key, w ++ [t])], n + 1⟩ ts := by
        rw [runPerKeyChecks,
          check_per_key_admit_single rpm h0 key w n t t hin hne hwlen]
      rw [hstep]
      simp only [List.map_cons, List.length_cons, List.replicate_succ]
      congr 1
      refine ih (w ++ [t]) (n + 1) _ (Or.inr ⟨rfl, by simp⟩) ?_ ?_ ?_
      · rw [← List.append_cons]; exact hpair
      · rw [← List.append_cons]; exact hbound
      · simp at hlen ⊢; omega

theorem runPerKey_full_reject (rpm a : Nat) (h0 : 0 < rpm) (key : Int) :
    ∀ (ts w : List Nat) (n : Nat) (st : PerKeyState), ts ≠ [] →
    (st = ⟨[], n⟩ ∧ w = [] ∨ st = ⟨[(key, w)], n⟩ ∧ w ≠ []) →
    List.Pairwise (· ≤ ·) (w ++ ts) →
    (∀ t ∈ w ++ ts, a ≤ t ∧ t ≤ a + 60) →
    w.length + ts.length = rpm + 1 →
    (runPerKeyChecks rpm key st ts).map Prod.fst
        = List.replicate (ts.length - 1) true ++ [false]
    ∧ ∃ r, (runPerKeyChecks rpm key st ts).getLast? = some (false, some r)
        ∧ r.limit = rpm ∧ r.remaining = 0 := by
  intro ts
  induction ts with
  | nil => intro w n st h; exact absurd rfl h
  | cons t ts ih =>
    intro w n st _ hshape hpair hbound hlen
    have hta : t ≤ a + 60 :=
      (hbound t (List.mem_append_right _ (List.mem_cons_self _ _))).2
    have hin : ∀ s ∈ w, t - 60 ≤ s := by
      intro s hs
      have hsa := (hbound s (List.mem_append_left _ hs)).1
      omega
    cases ts with
    | nil =>
      have hwlen : ¬ w.length < rpm := by simp at hlen; omega
      rcases hshape with ⟨rfl, rfl⟩ | ⟨rfl, hne⟩
      · simp at hlen; omega
      · have hstep : runPerKeyChecks rpm key ⟨[(key, w)], n⟩ [t]
            = [(false, some ⟨rpm, 0, compute_reset w t t⟩)] := by
          rw [runPerKeyChecks,
            check_per_key_reject_single rpm h0 key w n t t hin hne hwlen]
          simp [runPerKeyChecks]
        rw [hstep]
        exact ⟨by simp, ⟨rpm, 0, compute_reset w t t⟩, by simp, rfl, rfl⟩
    | cons t' ts' =>
      have hwlen : w.length < rpm := by simp at hlen; omega
      rcases hshape with ⟨rfl, rfl⟩ | ⟨rfl, hne⟩
      · have hstep : runPerKeyChecks rpm key ⟨[], n⟩ (t :: t' :: ts')
            = (true, some ⟨rpm, rpm - 1, compute_reset [t] t t⟩)
              :: runPerKeyChecks rpm key ⟨[(key, [t])], n + 1⟩ (t' :: ts') := by
          rw [runPerKeyChecks, check_per_key_admit_nil rpm h0 key n t t]
        rw [hstep]
        have hrec := ih [t] (n + 1) _ (by simp) (Or.inr ⟨rfl, by simp⟩)
          (by simpa using hpair) (by simpa using hbound)
          (by simp at hlen ⊢; omega)
        rcases hrec with ⟨hmap, r, hlast, hlim, hrem⟩
        constructor
        · simp only [List.map_cons, hmap, List.length_cons]
          rw [show (ts'.length + 1 + 1 - 1) = (ts'.length + 1 - 1) + 1 by omega,
            List.replicate_succ]
          simp
        · refine ⟨r, ?_, hlim, hrem⟩
          cases hrun : runPerKeyChecks rpm key ⟨[(key, [t])], n + 1⟩ (t' :: ts') with
          | nil => rw [hrun] at hmap; simp at hmap
          | cons x l =>
            rw [hrun] at hlast
            rw [List.getLast?_cons_cons]
            exact hlast
      · have hstep : runPerKeyChecks rpm key ⟨[(key, w)], n⟩ (t :: t' :: ts')
            = (true, some ⟨rpm, rpm - (w ++ [t]).length, compute_reset (w ++ [t]) t t⟩)
              :: runPerKeyChecks rpm key ⟨[(key, w ++ [t])], n + 1⟩ (t' :: ts') := by
          rw [runPerKeyChecks,
            check_per_key_admit_single rpm h0 key w n t t hin hne hwlen]
        rw [hstep]
        have hrec := ih (w ++ [t]) (n + 1) _ (by simp) (Or.inr ⟨rfl, by simp⟩)
          (by rw [← List.append_cons]; exact hpair)
          (by rw [← List.append_cons]; exact hbound)
          (by simp at hlen ⊢; omega)
        rcases hrec with ⟨hmap, r, hlast, hlim, hrem⟩
        constructor
        · simp only [List.map_cons, hmap, List.length_cons]
          rw [show (ts'.length + 1 + 1 - 1) = (ts'.length + 1 - 1) + 1 by omega,
            List.replicate_succ]
          simp
        · refine ⟨r, ?_, hlim, hrem⟩
          cases hrun : runPerKeyChecks rpm key ⟨[(key, w ++ [t])], n + 1⟩ (t' :: ts') with
          | nil => rw [hrun] at hmap; simp at hmap
          | cons x l =>
            rw [hrun] at hlast
            rw [List.getLast?_cons_cons]
            exact hlast

/-- C2: for every scope (global or per-key) with configured limit `L > 0`
and a fresh window, every sequence of `N ≤ L` checks whose timestamps all
lie within one 60-second window is fully admitted, and on a sequence of
`L + 1` such checks the first `L` are admitted while the `(L+1)`-th is
rejected with `remaining = 0`. -/
theorem c2_limit_enforced (L : Nat) (hL : 0 < L) (keyId : Int) :
    (∀ (ts : List Nat) (a : Nat), ts.length ≤ L →
        List.Pairwise (· ≤ ·) ts → (∀ t ∈ ts, a ≤ t ∧ t ≤ a + 60) →
        (runGlobalChecks L [] ts).map Prod.fst = List.replicate ts.length true
        ∧ (runPerKeyChecks L keyId ⟨[], 0⟩ ts).map Prod.fst
            = List.replicate ts.length true)
    ∧ (∀ (ts : List Nat) (a : Nat), ts.length = L + 1 →
        List.Pairwise (· ≤ ·) ts → (∀ t ∈ ts, a ≤ t ∧ t ≤ a + 60) →
        ((runGlobalChecks L [] ts).map Prod.fst = List.replicate L true ++ [false]
          ∧ ∃ r, (runGlobalChecks L [] ts).getLast? = some (false, some r)
              ∧ r.limit = L ∧ r.remaining = 0)
        ∧ ((runPerKeyChecks L keyId ⟨[], 0⟩ ts).map Prod.fst
              = List.replicate L true ++ [false]
          ∧ ∃ r, (runPerKeyChecks L keyId ⟨[], 0⟩ ts).getLast? = some (false, some r)
              ∧ r.limit = L ∧ r.remaining = 0)) := by
  constructor
  · intro ts a hlen hpair hbound
    refine ⟨runGlobal_all_admits L a ts [] (by simpa using hpair)
        (by simpa using hbound) (by simpa using hlen),
      runPerKey_all_admits L a keyId ts [] 0 ⟨[], 0⟩ (Or.inl ⟨rfl, rfl⟩)
        (by simpa using hpair) (by simpa using hbound) (by simpa using hlen)⟩
  · intro ts a hlen hpair hbound
    have hne : ts ≠ [] := by
      intro h; rw [h] at hlen; simp at hlen
    have hg := runGlobal_full_reject L a hL ts [] hne (by simpa using hpair)
      (by simpa using hbound) (by simpa using hlen)
    have hp := runPerKey_full_reject L a hL keyId ts [] 0 ⟨[], 0⟩ hne
      (Or.inl ⟨rfl, rfl⟩) (by simpa using hpair) (by simpa using hbound)
      (by simpa using hlen)
    rw [hlen] at hg hp
    simpa using ⟨hg, hp⟩

/-- C2 witness: limit 2, three checks at time 5 within one window. -/
theorem c2_limit_enforced_witness :
    ((runGlobalChecks 2 [] [5, 5, 5]).map Prod.fst
        = List.replicate 2 true ++ [false]
      ∧ ∃ r, (runGlobalChecks 2 [] [5, 5, 5]).getLast? = some (false, some r)
          ∧ r.limit = 2 ∧ r.remaining = 0)
    ∧ ((runPerKeyChecks 2 9 ⟨[], 0⟩ [5, 5, 5]).map Prod.fst
        = List.replicate 2 true ++ [false]
      ∧ ∃ r, (runPerKeyChecks 2 9 ⟨[], 0⟩ [5, 5, 5]).getLast? = some (false, some r)
          ∧ r.limit = 2 ∧ r.remaining = 0) :=
  (c2_limit_enforced 2 (by decide) 9).2 [5, 5, 5] 5 (by decide)
    (by decide) (by decide)

/-! ## Claim C8: the window invariant is preserved by every check -/

/-- The final global window after a sequence of `check_global` calls. -/
def runGlobalTrace (rpm : Nat) (window : List Nat) : List Nat → List Nat
  | [] => window
  | t :: ts =>
    match check_global rpm false window t t with
    | .ok (_, _, w') => runGlobalTrace rpm w' ts
    | .error _ => window

/-- The final per-key map after a sequence of `check_per_key` calls on
arbitrary keys. -/
def runPerKeyTrace (rpm : Nat) (st : PerKeyState) :
    List (Int × Nat) → PerKeyState
  | [] => st
  | (k, t) :: ops =>
    match check_per_key rpm false st k t t with
    | .ok (_, _, st') => runPerKeyTrace rpm st' ops
    | .error _ => st

theorem check_global_step (rpm : Nat) (h0 : 0 < rpm) (w : List Nat)
    (now nu : Nat) :
    ∃ adm info, check_global rpm false w now nu
      = .ok (adm, info, if (prune_window w (now - 60)).length < rpm
          then prune_window w (now - 60) ++ [now]
          else prune_window w (now - 60)) := by
  rw [check_global, if_neg (Nat.pos_iff_ne_zero.mp h0), if_neg (by simp)]
  by_cases h : (prune_window w (now - 60)).length < rpm
  · exact ⟨true, _, by rw [if_pos h, if_pos h]⟩
  · exact ⟨false, _, by rw [if_neg h, if_neg h]⟩

theorem check_per_key_step (rpm : Nat) (h0 : 0 < rpm) (st : PerKeyState)
    (key : Int) (now nu : Nat) :
    ∃ adm info, check_per_key rpm false st key now nu
      = .ok (adm, info,
          ⟨setWindow (perKeyWindows st (now - 60)) key
            (if (perKeyWindow st key (now - 60)).length < rpm
             then perKeyWindow st key (now - 60) ++ [now]
             else perKeyWindow st key (now - 60)),
           st.checkCount + 1⟩) := by
  rw [check_per_key, if_neg (Nat.pos_iff_ne_zero.mp h0), if_neg (by simp)]
  by_cases h : (perKeyWindow st key (now - 60)).length < rpm
  · exact ⟨true, _, by rw [if_pos h, if_pos h]⟩
  · exact ⟨false, _, by rw [if_neg h, if_neg h]⟩

/-- The prune/compare/push step preserves sortedness and leaves every
entry within `[now - 60, now]`. -/
theorem windowStep_inv (rpm : Nat) (w : List Nat) (now : Nat)
    (hpw : List.Pairwise (· ≤ ·) w) (hub : ∀ s ∈ w, s ≤ now) :
    List.Pairwise (· ≤ ·) (if (prune_window w (now - 60)).length < rpm
        then prune_window w (now - 60) ++ [now] else prune_window w (now - 60))
    ∧ ∀ s ∈ (if (prune_window w (now - 60)).length < rpm
        then prune_window w (now - 60) ++ [now] else prune_window w (now - 60)),
        now - 60 ≤ s ∧ s ≤ now := by
  have hppw := prune_window_pairwise w (now - 60) hpw
  have hge := prune_window_ge w (now - 60) hpw
  have hsub := prune_window_subset w (now - 60)
  by_cases h : (prune_window w (now - 60)).length < rpm
  · rw [if_pos h]
    constructor
    · rw [List.pairwise_append]
      refine ⟨hppw, List.pairwise_singleton _ _, ?_⟩
      intro x hx y hy
      rcases List.mem_singleton.mp hy with rfl
      exact hub x (hsub x hx)
    · intro s hs
      rcases List.mem_append.mp hs with hs | hs
      · exact ⟨hge s hs, hub s (hsub s hs)⟩
      · rcases List.mem_singleton.mp hs with rfl
        exact ⟨Nat.sub_le _ _, le_refl _⟩
  · rw [if_neg h]
    exact ⟨hppw, fun s hs => ⟨hge s hs, hub s (hsub s hs)⟩⟩

theorem lookupWindow_mem (ws : List (Int × List Nat)) (k : Int) (w : List Nat)
    (h : lookupWindow ws k = some w) : (k, w) ∈ ws := by
  induction ws with
  | nil => simp [lookupWindow] at h
  | cons p rest ih =>
    obtain ⟨k', w'⟩ := p
    rw [lookupWindow] at h
    by_cases hk : k' = k
    · rw [if_pos hk] at h
      subst hk
      obtain rfl : w' = w := by injection h
      exact List.mem_cons_self _ _
    · rw [if_neg hk] at h
      exact List.mem_cons_of_mem _ (ih h)

theorem retainNonEmpty_mem (c : Nat) (ws : List (Int × List Nat))
    (p : Int × List Nat) (h : p ∈ retainNonEmpty c ws) :
    ∃ w₀, (p.1, w₀) ∈ ws ∧ p.2 = prune_window w₀ c := by
  induction ws with
  | nil => simp [retainNonEmpty] at h
  | cons q rest ih =>
    obtain ⟨k', w'⟩ := q
    rw [retainNonEmpty] at h
    by_cases hemp : (prune_window w' c).isEmpty
    · rw [if_pos hemp] at h
      obtain ⟨w₀, hmem, heq⟩ := ih h
      exact ⟨w₀, List.mem_cons_of_mem _ hmem, heq⟩
    · rw [if_neg hemp] at h
      rcases List.mem_cons.mp h with rfl | h
      · exact ⟨w', List.mem_cons_self _ _, rfl⟩
      · obtain ⟨w₀, hmem, heq⟩ := ih h
        exact ⟨w₀, List.mem_cons_of_mem _ hmem, heq⟩

theorem setWindow_mem (ws : List (Int × List Nat)) (k : Int) (w : List Nat)
    (p : Int × List Nat) (h : p ∈ setWindow ws k w) :
    p = (k, w) ∨ p ∈ ws := by
  induction ws with
  | nil =>
    rw [setWindow] at h
    rcases List.mem_singleton.mp h with rfl
    exact Or.inl rfl
  | cons q rest ih =>
    obtain ⟨k', w'⟩ := q
    rw [setWindow] at h
    by_cases hk : k' = k
    · rw [if_pos hk] at h
      subst hk
      rcases List.mem_cons.mp h with rfl | h
      · exact Or.inl rfl
      · exact Or.inr (List.mem_cons_of_mem _ h)
    · rw [if_neg hk] at h
      rcases List.mem_cons.mp h with rfl | h
      · exact Or.inr (List.mem_cons_self _ _)
      · rcases ih h with h | h
        · exact Or.inl h
        · exact Or.inr (List.mem_cons_of_mem _ h)

theorem lookupWindow_setWindow_self (ws : List (Int × List Nat)) (k : Int)
    (w : List Nat) : lookupWindow (setWindow ws k w) k = some w := by
  induction ws with
  | nil => simp [setWindow, lookupWindow]
  | cons q rest ih =>
    obtain ⟨k', w'⟩ := q
    rw [setWindow]
    by_cases hk : k' = k
    · rw [if_pos hk, lookupWindow, if_pos hk]
    · rw [if_neg hk, lookupWindow, if_neg hk]
      exact ih

/-- Every window in the map seen by a check (after the optional cleanup
sweep) is sorted and keeps any pointwise property its stored entries had. -/
theorem perKeyWindows_inv (st : PerKeyState) (c : Nat) (P : Nat → Prop)
    (hinv : ∀ p ∈ st.windows, List.Pairwise (· ≤ ·) p.2 ∧ ∀ s ∈ p.2, P s) :
    ∀ p ∈ perKeyWindows st c, List.Pairwise (· ≤ ·) p.2 ∧ ∀ s ∈ p.2, P s := by
  intro p hp
  rw [perKeyWindows] at hp
  by_cases hclean : (st.checkCount + 1) % PER_KEY_CLEANUP_EVERY = 0
  · rw [if_pos hclean] at hp
    obtain ⟨w₀, hmem, heq⟩ := retainNonEmpty_mem c st.windows p hp
    obtain ⟨hpw, hub⟩ := hinv (p.1, w₀) hmem
    rw [heq]
    exact ⟨prune_window_pairwise _ _ hpw,
      fun s hs => hub s (prune_window_subset _ _ s hs)⟩
  · rw [if_neg hclean] at hp
    exact hinv p hp

theorem runGlobalTrace_rpm_zero (w : List Nat) :
    ∀ ts, runGlobalTrace 0 w ts = w := by
  intro ts
  induction ts with
  | nil => rfl
  | cons t ts ih =>
    rw [runGlobalTrace, show check_global 0 false w t t = .ok (true, none, w) from rfl]
    exact ih

theorem runPerKeyTrace_rpm_zero (st : PerKeyState) :
    ∀ ops, runPerKeyTrace 0 st ops = st := by
  intro ops
  induction ops with
  | nil => rfl
  | cons op ops ih =>
    obtain ⟨k, t⟩ := op
    rw [runPerKeyTrace, show check_per_key 0 false st k t t = .ok (true, none, st) from rfl]
    exact ih

theorem runGlobalTrace_inv (rpm : Nat) (h0 : 0 < rpm) :
    ∀ (ts : List Nat) (now : Nat) (w : List Nat),
    List.Pairwise (· ≤ ·) w →
    (∀ s ∈ w, ∀ t ∈ ts ++ [now], s ≤ t) →
    List.Pairwise (· ≤ ·) (ts ++ [now]) →
    List.Pairwise (· ≤ ·) (runGlobalTrace rpm w (ts ++ [now]))
    ∧ ∀ s ∈ runGlobalTrace rpm w (ts ++ [now]), now - 60 ≤ s ∧ s ≤ now := by
  intro ts
  induction ts with
  | nil =>
    intro now w hpw hub _
    obtain ⟨adm, info, hchk⟩ := check_global_step rpm h0 w now now
    have hrun : runGlobalTrace rpm w ([] ++ [now])
        = (if (prune_window w (now - 60)).length < rpm
           then prune_window w (now - 60) ++ [now]
           else prune_window w (now - 60)) := by
      rw [List.nil_append, runGlobalTrace, hchk]
      rfl
    rw [hrun]
    exact windowStep_inv rpm w now hpw (fun s hs => hub s hs now (by simp))
  | cons t ts ih =>
    intro now w hpw hub hp
    obtain ⟨adm, info, hchk⟩ := check_global_step rpm h0 w t t
    have hub_t : ∀ s ∈ w, s ≤ t := fun s hs => hub s hs t (by simp)
    have hstep := windowStep_inv rpm w t hpw hub_t
    have hrun : runGlobalTrace rpm w ((t :: ts) ++ [now])
        = runGlobalTrace rpm
            (if (prune_window w (t - 60)).length < rpm
             then prune_window w (t - 60) ++ [t]
             else prune_window w (t - 60)) (ts ++ [now]) := by
      rw [List.cons_append, runGlobalTrace, hchk]
    rw [hrun]
    have hp' : List.Pairwise (· ≤ ·) (ts ++ [now]) := by
      rw [List.cons_append] at hp
      exact (List.pairwise_cons.mp hp).2
    have htle : ∀ t' ∈ ts ++ [now], t ≤ t' := by
      rw [List.cons_append] at hp
      exact (List.pairwise_cons.mp hp).1
    refine ih now _ hstep.1 ?_ hp'
    intro s hs t' ht'
    exact le_trans (hstep.2 s hs).2 (htle t' ht')

theorem runPerKeyTrace_inv (rpm : Nat) (h0 : 0 < rpm) :
    ∀ (ops : List (Int × Nat)) (key : Int) (now : Nat) (st : PerKeyState),
    (∀ p ∈ st.windows, List.Pairwise (· ≤ ·) p.2
        ∧ ∀ s ∈ p.2, ∀ t ∈ ops.map Prod.snd ++ [now], s ≤ t) →
    List.Pairwise (· ≤ ·) (ops.map Prod.snd ++ [now]) →
    List.Pairwise (· ≤ ·) ((lookupWindow
        (runPerKeyTrace rpm st (ops ++ [(key, now)])).windows key).getD [])
    ∧ ∀ s ∈ (lookupWindow
        (runPerKeyTrace rpm st (ops ++ [(key, now)])).windows key).getD [],
        now - 60 ≤ s ∧ s ≤ now := by
  intro ops
  induction ops with
  | nil =>
    intro key now st hinv _
    obtain ⟨adm, info, hchk⟩ := check_per_key_step rpm h0 st key now now
    have hrun : runPerKeyTrace rpm st ([] ++ [(key, now)])
        = ⟨setWindow (perKeyWindows st (now - 60)) key
            (if (perKeyWindow st key (now - 60)).length < rpm
             then perKeyWindow st key (now - 60) ++ [now]
             else perKeyWindow st key (now - 60)),
           st.checkCount + 1⟩ := by
      rw [List.nil_append, runPerKeyTrace, hchk]
      rfl
    rw [hrun]
    simp only [lookupWindow_setWindow_self, Option.getD_some]
    have hinv' := perKeyWindows_inv st (now - 60) (· ≤ now) (fun q hq =>
      ⟨(hinv q hq).1, fun s hs => (hinv q hq).2 s hs now (by simp)⟩)
    have hw₀ : List.Pairwise (· ≤ ·)
          ((lookupWindow (perKeyWindows st (now - 60)) key).getD [])
        ∧ ∀ s ∈ (lookupWindow (perKeyWindows st (now - 60)) key).getD [],
            s ≤ now := by
      cases hlk : lookupWindow (perKeyWindows st (now - 60)) key with
      | none => simp
      | some wx => simpa using hinv' (key, wx) (lookupWindow_mem _ _ _ hlk)
    have hpkeq : perKeyWindow st key (now - 60)
        = prune_window ((lookupWindow (perKeyWindows st (now - 60)) key).getD [])
            (now - 60) := rfl
    rw [hpkeq]
    exact windowStep_inv rpm _ now hw₀.1 hw₀.2
  | cons op ops ih =>
    obtain ⟨k', t⟩ := op
    intro key now st hinv hp
    obtain ⟨adm, info, hchk⟩ := check_per_key_step rpm h0 st k' t t
    have hrun : runPerKeyTrace rpm st (((k', t) :: ops) ++ [(key, now)])
        = runPerKeyTrace rpm
            ⟨setWindow (perKeyWindows st (t - 60)) k'
              (if (perKeyWindow st k' (t - 60)).length < rpm
               then perKeyWindow st k' (t - 60) ++ [t]
               else perKeyWindow st k' (t - 60)),
             st.checkCount + 1⟩ (ops ++ [(key, now)]) := by
      rw [List.cons_append, runPerKeyTrace, hchk]
    rw [hrun]
    have hp0 : List.Pairwise (· ≤ ·) (ops.map Prod.snd ++ [now]) := by
      simp only [List.map_cons, List.cons_append] at hp
      exact (List.pairwise_cons.mp hp).2
    have htle : ∀ t' ∈ ops.map Prod.snd ++ [now], t ≤ t' := by
      simp only [List.map_cons, List.cons_append] at hp
      exact (List.pairwise_cons.mp hp).1
    refine ih key now _ ?_ hp0
    intro p hpmem
    rcases setWindow_mem _ _ _ p hpmem with rfl | hpmem
    · have hinv' := perKeyWindows_inv st (t - 60) (· ≤ t) (fun q hq =>
        ⟨(hinv q hq).1, fun s hs => (hinv q hq).2 s hs t (by simp)⟩)
      have hw₀ : List.Pairwise (· ≤ ·)
            ((lookupWindow (perKeyWindows st (t - 60)) k').getD [])
          ∧ ∀ s ∈ (lookupWindow (perKeyWindows st (t - 60)) k').getD [],
              s ≤ t := by
        cases hlk : lookupWindow (perKeyWindows st (t - 60)) k' with
        | none => simp
        | some wx => simpa using hinv' (k', wx) (lookupWindow_mem _ _ _ hlk)
      have hstep := windowStep_inv rpm _ t hw₀.1 hw₀.2
      have hpkeq : perKeyWindow st k' (t - 60)
          = prune_window ((lookupWindow (perKeyWindows st (t - 60)) k').getD [])
              (t - 60) := rfl
      constructor
      · show List.Pairwise (· ≤ ·) (if (perKeyWindow st k' (t - 60)).length < rpm
            then perKeyWindow st k' (t - 60) ++ [t]
            else perKeyWindow st k' (t - 60))
        rw [hpkeq]
        exact hstep.1
      · show ∀ s ∈ (if (perKeyWindow st k' (t - 60)).length < rpm
            then perKeyWindow st k' (t - 60) ++ [t]
            else perKeyWindow st k' (t - 60)),
            ∀ t' ∈ ops.map Prod.snd ++ [now], s ≤ t'
        rw [hpkeq]
        intro s hs t' ht'
        exact le_trans (hstep.2 s hs).2 (htle t' ht')
    · have hq := perKeyWindows_inv st (t - 60)
        (fun s => ∀ t' ∈ ops.map Prod.snd ++ [now], s ≤ t')
        (fun q hqmem => ⟨(hinv q hqmem).1, fun s hs t' ht' =>
          (hinv q hqmem).2 s hs t' (by
            simp only [List.map_cons, List.cons_append]
            exact List.mem_cons_of_mem _ ht')⟩) p hpmem
      exact hq

/-- C8: after every check on a scope (global or per-key), run at the last
time of a nondecreasing sequence of check times, the scope's stored window
is monotonically nondecreasing and every timestamp in it lies within
`[now - 60, now]`; this holds for every state reachable from a fresh
limiter. -/
theorem c8_window_invariant (rpm : Nat) :
    (∀ (ts : List Nat) (now : Nat), List.Pairwise (· ≤ ·) (ts ++ [now]) →
      List.Pairwise (· ≤ ·) (runGlobalTrace rpm [] (ts ++ [now]))
      ∧ ∀ s ∈ runGlobalTrace rpm [] (ts ++ [now]), now - 60 ≤ s ∧ s ≤ now)
    ∧ (∀ (ops : List (Int × Nat)) (key : Int) (now : Nat),
      List.Pairwise (· ≤ ·) (ops.map Prod.snd ++ [now]) →
      List.Pairwise (· ≤ ·) ((lookupWindow
          (runPerKeyTrace rpm ⟨[], 0⟩ (ops ++ [(key, now)])).windows key).getD [])
      ∧ ∀ s ∈ (lookupWindow
          (runPerKeyTrace rpm ⟨[], 0⟩ (ops ++ [(key, now)])).windows key).getD [],
          now - 60 ≤ s ∧ s ≤ now) := by
  rcases Nat.eq_zero_or_pos rpm with rfl | h0
  · constructor
    · intro ts now _
      rw [runGlobalTrace_rpm_zero]
      simp
    · intro ops key now _
      rw [runPerKeyTrace_rpm_zero]
      simp [lookupWindow]
  · constructor
    · intro ts now hp
      exact runGlobalTrace_inv rpm h0 ts now [] (by simp) (by simp) hp
    · intro ops key now hp
      exact runPerKeyTrace_inv rpm h0 ops key now ⟨[], 0⟩ (by simp) hp

/-- C8 witness: two global checks at times 5 and 30 and two per-key checks
at the same times on key 3, with limit 1 (so the second check of each
scope is rejected yet the invariant still holds). -/
theorem c8_window_invariant_witness :
    (List.Pairwise (· ≤ ·) (runGlobalTrace 1 [] ([5] ++ [30]))
      ∧ ∀ s ∈ runGlobalTrace 1 [] ([5] ++ [30]), 30 - 60 ≤ s ∧ s ≤ 30)
    ∧ (List.Pairwise (· ≤ ·) ((lookupWindow
        (runPerKeyTrace 1 ⟨[], 0⟩ ([(3, 5)] ++ [(3, 30)])).windows 3).getD [])
      ∧ ∀ s ∈ (lookupWindow
          (runPerKeyTrace 1 ⟨[], 0⟩ ([(3, 5)] ++ [(3, 30)])).windows 3).getD [],
          30 - 60 ≤ s ∧ s ≤ 30) :=
  ⟨(c8_window_invariant 1).1 [5] 30 (by decide),
    (c8_window_invariant 1).2 [(3, 5)] 3 30 (by decide)⟩

/-! ## The credential authenticator (src/auth.rs) -/

/-- Rust `str::is_char_boundary` at index `i` of a UTF-8 byte string:
true at 0 and at the length, and otherwise exactly when the byte at `i`
is not a continuation byte `0x80..=0xBF`. -/
def isCharBoundary (bs : List Nat) (i : Nat) : Bool :=
  if i = 0 then true
  else if i = bs.length then true
  else match bs[i]? with
    | some b => decide (b < 128 ∨ 192 ≤ b)
    | none => false

/-- `u8::to_ascii_lowercase`. -/
def toAsciiLower (b : Nat) : Nat :=
  if 65 ≤ b ∧ b ≤ 90 then b + 32 else b

/-- `str::eq_ignore_ascii_case` on UTF-8 bytes. -/
def eqIgnoreAsciiCase : List Nat → List Nat → Bool
  | [], [] => true
  | x :: xs, y :: ys => toAsciiLower x == toAsciiLower y && eqIgnoreAsciiCase xs ys
  | _, _ => false

/-- The value of a standard-alphabet base64 character. -/
def b64Val (b : Nat) : Option Nat :=
  if 65 ≤ b ∧ b ≤ 90 then some (b - 65)
  else if 97 ≤ b ∧ b ≤ 122 then some (b - 97 + 26)
  else if 48 ≤ b ∧ b ≤ 57 then some (b - 48 + 52)
  else if b = 43 then some 62
  else if b = 47 then some 63
  else none

/-- Decode one base64 quad.  `isLast` says whether this is the final quad
(`=` padding is only legal there); nonzero trailing bits are rejected, as
in the `base64` crate's `STANDARD` engine. -/
def decodeQuad (a b c d : Nat) (isLast : Bool) : Option (List Nat) :=
  match b64Val a, b64Val b with
  | some va, some vb =>
    if c = 61 then
      if d = 61 ∧ isLast = true then
        if vb % 16 = 0 then some [va * 4 + vb / 16] else none
      else none
    else
      match b64Val c with
      | some vc =>
        if d = 61 then
          if isLast = true then
            if vc % 4 = 0 then some [va * 4 + vb / 16, (vb % 16) * 16 + vc / 4]
            else none
          else none
        else
          match b64Val d with
          | some vd =>
            some [va * 4 + vb / 16, (vb % 16) * 16 + vc / 4, (vc % 4) * 64 + vd]
          | none => none
      | none => none
  | _, _ => none

/-- Standard base64 decoding with mandatory canonical padding
(`base64::engine::general_purpose::STANDARD.decode`). -/
def base64Decode : List Nat → Option (List Nat)
  | [] => some []
  | a :: b :: c :: d :: rest =>
    match decodeQuad a b c d rest.isEmpty, base64Decode rest with
    | some xs, some ys => some (xs ++ ys)
    | _, _ => none
  | _ => none

/-- A UTF-8 continuation byte. -/
def isCont (b : Nat) : Bool := 128 ≤ b && b ≤ 191

/-- Strict UTF-8 validity, as checked by `String::from_utf8`: rejects
overlong encodings, surrogates and code points above U+10FFFF. -/
def isValidUtf8 : List Nat → Bool
  | [] => true
  | b :: rest =>
    if b ≤ 127 then isValidUtf8 rest
    else if 194 ≤ b && b ≤ 223 then
      match rest with
      | c1 :: rest' => isCont c1 && isValidUtf8 rest'
      | [] => false
    else if b = 224 then
      match rest with
      | c1 :: c2 :: rest' =>
        (160 ≤ c1 && c1 ≤ 191) && isCont c2 && isValidUtf8 rest'
      | _ => false
    else if (225 ≤ b && b ≤ 236) || b = 238 || b = 239 then
      match rest with
      | c1 :: c2 :: rest' => isCont c1 && isCont c2 && isValidUtf8 rest'
      | _ => false
    else if b = 237 then
      match rest with
      | c1 :: c2 :: rest' =>
        (128 ≤ c1 && c1 ≤ 159) && isCont c2 && isValidUtf8 rest'
      | _ => false
    else if b = 240 then
      match rest with
      | c1 :: c2 :: c3 :: rest' =>
        (144 ≤ c1 && c1 ≤ 191) && isCont c2 && isCont c3 && isValidUtf8 rest'
      | _ => false
    else if 241 ≤ b && b ≤ 243 then
      match rest with
      | c1 :: c2 :: c3 :: rest' =>
        isCont c1 && isCont c2 && isCont c3 && isValidUtf8 rest'
      | _ => false
    else if b = 244 then
      match rest with
      | c1 :: c2 :: c3 :: rest' =>
        (128 ≤ c1 && c1 ≤ 143) && isCont c2 && isCont c3 && isValidUtf8 rest'
      | _ => false
    else false

/-- `str::split_once(':')` acting on the UTF-8 bytes of a valid string
(in valid UTF-8 the byte 0x3A occurs exactly at `:` characters). -/
def splitOnceColon : List Nat → Option (List Nat × List Nat)
  | [] => none
  | b :: rest =>
    if b = 58 then some ([], rest)
    else match splitOnceColon rest with
      | some (k, s) => some (b :: k, s)
      | none => none

/-- UTF-8 bytes of `"Basic "`. -/
def basicPrefix : List Nat := [66, 97, 115, 105, 99, 32]

/-- Result of the credential-extraction prefix of the auth guard. -/
inductive HeaderParse where
  | ok (keyId secret : List Nat)
  | fail (status : Nat) (e : ApiError)
  | panicked
deriving Repr, DecidableEq

/-- The credential-extraction steps of `AuthenticatedKey::from_request`
(src/auth.rs up to `split_once`): header presence, the `header[..6]`
slice — which panics when byte 6 is not a character boundary — with the
case-insensitive `Basic ` comparison, base64 decoding, UTF-8 validation
and the first-`:` split into `key_id` and `secret`. -/
def parseBasicHeader (header : Option (List Nat)) : HeaderParse :=
  match header with
  | none => .fail 401 (.unauthorized "missing Authorization header")
  | some h =>
    if 6 < h.length then
      if isCharBoundary h 6 then
        if eqIgnoreAsciiCase (h.take 6) basicPrefix then
          match base64Decode (h.drop 6) with
          | none => .fail 401 (.unauthorized "invalid base64 encoding")
          | some decoded =>
            if isValidUtf8 decoded then
              match splitOnceColon decoded with
              | some (k, s) => .ok k s
              | none => .fail 401 (.unauthorized "invalid credentials format")
            else .fail 401 (.unauthorized "invalid credentials encoding")
        else .fail 401 (.unauthorized "invalid Authorization scheme")
      else .panicked
    else .fail 401 (.unauthorized "invalid Authorization scheme")

/-- `ApiKeyRow` (src/auth.rs); strings are UTF-8 byte lists. -/
structure ApiKeyRow where
  id : Int
  key_id : List Nat
  secret_hash : List Nat
  label : List Nat
  owner : List Nat
  active : Bool
  created_at : List Nat
  updated_at : List Nat
deriving Repr, DecidableEq

/-- The SQL lookup `... FROM api_keys WHERE key_id = ? AND active = 1`
over the table rows. -/
def lookupActive (db : List ApiKeyRow) (k : List Nat) : Option ApiKeyRow :=
  db.find? (fun r => r.key_id == k && r.active)

/-- External collaborators of the authenticator: the credential table,
whether the `sqlx` query fails, whether `PasswordHash::new` parses a
stored hash record, and whether `Argon2::verify_password` accepts a
secret against a stored hash. -/
structure AuthEnv where
  db : List ApiKeyRow
  dbError : Bool
  hashParses : List Nat → Bool
  verifyOk : List Nat → List Nat → Bool

/-- `AuthenticatedKey` (src/auth.rs). -/
structure AuthenticatedKey where
  id : Int
  key_id : List Nat
  label : List Nat
  owner : List Nat
deriving Repr, DecidableEq

/-- Rocket's request-local cache as read by the response fairings:
the `CachedRateLimitInfo` slot and the `AuthKeyId` slot. -/
structure ReqCtx where
  cachedRateInfo : Option RateLimitInfo
  authKeyId : Option Int
deriving Repr, DecidableEq

/-- A Rocket request-guard outcome, plus a panic escaping the guard. -/
inductive GuardOutcome (α : Type) where
  | success (a : α)
  | error (status : Nat) (e : ApiError)
  | panicked
deriving Repr, DecidableEq

/-- Store freshly computed quota info in the request-local
`CachedRateLimitInfo` slot (the per-request mutex is fresh, so the
`if let Ok(mut guard)` always succeeds). -/
def cacheInfo (ctx : ReqCtx) (info : Option RateLimitInfo) : ReqCtx :=
  match info with
  | some i => { ctx with cachedRateInfo := some i }
  | none => ctx

/-- `req.local_cache(|| AuthKeyId(Some(row.id)))`: the first write to the
slot wins. -/
def cacheAuthKeyId (ctx : ReqCtx) (id : Int) : ReqCtx :=
  match ctx.authKeyId with
  | some _ => ctx
  | none => { ctx with authKeyId := some id }

/-- `AuthenticatedKey::from_request` (src/auth.rs): credential
extraction, the active-key lookup, stored-hash parsing, secret
verification, recording `AuthKeyId`, then the immediate per-key rate
check whose quota info is cached for the response headers. -/
def authGuardStep (env : AuthEnv) (perKeyRpm : Nat) (pkPoisoned : Bool)
    (header : Option (List Nat)) (ctx : ReqCtx) (pk : PerKeyState)
    (now nowUnix : Nat) :
    GuardOutcome AuthenticatedKey × ReqCtx × PerKeyState :=
  match parseBasicHeader header with
  | .panicked => (.panicked, ctx, pk)
  | .fail s e => (.error s e, ctx, pk)
  | .ok keyId secret =>
    if env.dbError then
      (.error 500 (.internal "authentication check failed"), ctx, pk)
    else
      match lookupActive env.db keyId with
      | none => (.error 401 (.unauthorized "invalid credentials"), ctx, pk)
      | some row =>
        if env.hashParses row.secret_hash then
          if env.verifyOk secret row.secret_hash then
            match check_per_key perKeyRpm pkPoisoned pk row.id now nowUnix with
            | .ok (true, info, pk') =>
              (.success ⟨row.id, row.key_id, row.label, row.owner⟩,
                cacheInfo (cacheAuthKeyId ctx row.id) info, pk')
            | .ok (false, info, pk') =>
              (.error 429 (.rateLimited "Too many requests, please try again later"),
                cacheInfo (cacheAuthKeyId ctx row.id) info, pk')
            | .error e => (.error 500 e, cacheAuthKeyId ctx row.id, pk)
          else
            (.error 401 (.unauthorized "invalid credentials"), ctx, pk)
        else
          (.error 500 (.internal "authentication check failed"), ctx, pk)

/-- `GlobalRateLimit::from_request` (src/fairings/rate_limiter.rs): run
the global check, cache any quota info, succeed or fail with 429/500. -/
def globalRateLimitGuard (rpm : Nat) (poisoned : Bool) (w : List Nat)
    (now nowUnix : Nat) (ctx : ReqCtx) :
    GuardOutcome Unit × ReqCtx × List Nat :=
  match check_global rpm poisoned w now nowUnix with
  | .ok (true, info, w') => (.success (), cacheInfo ctx info, w')
  | .ok (false, info, w') =>
    (.error 429 (.rateLimited "Too many requests, please try again later"),
      cacheInfo ctx info, w')
  | .error e => (.error 500 e, ctx, w)

/-! ## Responses, catchers and the protected-route pipeline -/

/-- The externally observable response: status, JSON error body fields,
and the headers the admission layer sets (header values are decimal
renderings of the numbers recorded here). -/
structure HttpResponse where
  status : Nat
  errorCode : Option String
  errorMessage : Option String
  retryAfter : Option Nat
  rateLimitLimit : Option Nat
  rateLimitRemaining : Option Nat
  rateLimitReset : Option Nat
deriving Repr, DecidableEq

/-- The registered error catchers (src/catchers.rs).  Rocket dispatches a
guard failure to the catcher of its status; the 429 catcher's
`RateLimitedResponse` adds `Retry-After: 60`. -/
def catcherResponse (s : Nat) : HttpResponse :=
  if s = 400 then
    ⟨400, some "BAD_REQUEST", some "The request was invalid or malformed",
      none, none, none, none⟩
  else if s = 401 then
    ⟨401, some "UNAUTHORIZED", some "Missing or invalid credentials",
      none, none, none, none⟩
  else if s = 404 then
    ⟨404, some "NOT_FOUND", some "The requested resource was not found",
      none, none, none, none⟩
  else if s = 422 then
    ⟨422, some "UNPROCESSABLE_ENTITY", some "Request body could not be parsed",
      none, none, none, none⟩
  else if s = 429 then
    ⟨429, some "RATE_LIMITED", some "Too many requests, please try again later",
      some 60, none, none, none⟩
  else
    ⟨500, some "INTERNAL_ERROR", some "Internal server error",
      none, none, none, none⟩

/-- `ApiError`'s `Responder` impl (src/error.rs), used when the route
handler itself returns `Err`. -/
def apiErrorResponse (e : ApiError) : HttpResponse :=
  match e with
  | .badRequest m => ⟨400, some "BAD_REQUEST", some m, none, none, none, none⟩
  | .unauthorized m => ⟨401, some "UNAUTHORIZED", some m, none, none, none, none⟩
  | .notFound m => ⟨404, some "NOT_FOUND", some m, none, none, none, none⟩
  | .internal m => ⟨500, some "INTERNAL_ERROR", some m, none, none, none, none⟩
  | .rateLimited m => ⟨429, some "RATE_LIMITED", some m, some 60, none, none, none⟩

/-- `RateLimitHeadersFairing::on_response`: attach the cached quota info,
when present, to every outgoing response. -/
def applyRateLimitHeaders (ctx : ReqCtx) (r : HttpResponse) : HttpResponse :=
  match ctx.cachedRateInfo with
  | some i =>
    { r with
        rateLimitLimit := some i.limit
        rateLimitRemaining := some i.remaining
        rateLimitReset := some i.reset }
  | none => r

/-- The shared limiter state of the server. -/
structure ServerState where
  globalWindow : List Nat
  perKey : PerKeyState
deriving Repr, DecidableEq

/-- The two limits fixed at process start (`RateLimiter::new`). -/
structure Limits where
  globalRpm : Nat
  perKeyRpm : Nat
deriving Repr, DecidableEq

/-- Result of one request: the final response, the key id the
`UsageLogger` records a usage row for (none when no identity resolved),
and the new limiter state — or a panic. -/
inductive PipelineResult where
  | response (r : HttpResponse) (usageRecorded : Option Int) (st : ServerState)
  | panicked
deriving Repr, DecidableEq

/-- One request to a protected route (`get_tokens`, src/routes/tokens.rs):
the `GlobalRateLimit` guard, then the `AuthenticatedKey` guard, then the
handler; the response then passes through `RateLimitHeadersFairing`, and
`UsageLogger::on_response` records a usage row exactly when the
`AuthKeyId` slot holds an id. -/
def dispatchProtected (lim : Limits) (env : AuthEnv)
    (gPoisoned pkPoisoned : Bool) (header : Option (List Nat))
    (handlerResult : Except ApiError Unit) (st : ServerState)
    (now nowUnix : Nat) : PipelineResult :=
  match globalRateLimitGuard lim.globalRpm gPoisoned st.globalWindow now nowUnix
      ⟨none, none⟩ with
  | (.panicked, _, _) => .panicked
  | (.error s _, ctx1, gw') =>
    .response (applyRateLimitHeaders ctx1 (catcherResponse s)) ctx1.authKeyId
      ⟨gw', st.perKey⟩
  | (.success _, ctx1, gw') =>
    match authGuardStep env lim.perKeyRpm pkPoisoned header ctx1 st.perKey
        now nowUnix with
    | (.panicked, _, _) => .panicked
    | (.error s _, ctx2, pk') =>
      .response (applyRateLimitHeaders ctx2 (catcherResponse s)) ctx2.authKeyId
        ⟨gw', pk'⟩
    | (.success _, ctx2, pk') =>
      match handlerResult with
      | .ok _ =>
        .response (applyRateLimitHeaders ctx2 ⟨200, none, none, none, none, none, none⟩)
          ctx2.authKeyId ⟨gw', pk'⟩
      | .error e =>
        .response (applyRateLimitHeaders ctx2 (apiErrorResponse e)) ctx2.authKeyId
          ⟨gw', pk'⟩

/-! ## Claim C10: the scheme check on the Authorization header -/

/-- C10 (the code bug): the scheme-check step is not total.  On the
7-byte header `Basicé` (bytes 42 61 73 69 63 C3 A9) the length guard
passes, but byte index 6 falls inside the two-byte character `é`, so the
`header[..6]` slice panics instead of stripping the prefix or returning
an unauthorized outcome. -/
theorem c10_scheme_check_panics :
    parseBasicHeader (some [66, 97, 115, 105, 99, 195, 169]) = .panicked := rfl

/-! ## Shared concrete fixtures -/

/-- `"Basic a2V5OnNlYw=="` as UTF-8 bytes; the base64 payload decodes to
`key:sec`. -/
def sampleHeader : List Nat :=
  [66, 97, 115, 105, 99, 32, 97, 50, 86, 53, 79, 110, 78, 108, 89, 119, 61, 61]

/-- A stored active credential row whose `key_id` is `key`. -/
def sampleRow : ApiKeyRow :=
  ⟨7, [107, 101, 121], [36, 104], [108], [111], true, [], []⟩

/-- Environment with the sample row stored but an unparsable hash record. -/
def envBadHash : AuthEnv := ⟨[sampleRow], false, fun _ => false, fun _ _ => false⟩

/-- Environment with the sample row stored, a parsable hash, and a
verifier that rejects the presented secret. -/
def envWrongSecret : AuthEnv := ⟨[sampleRow], false, fun _ => true, fun _ _ => false⟩

/-- Environment with an empty credential table. -/
def envUnknownKey : AuthEnv := ⟨[], false, fun _ => true, fun _ _ => true⟩

/-- Environment in which every credential check succeeds (its table is
empty, so it only matters for requests that fail before lookup). -/
def envTrivial : AuthEnv := ⟨[], false, fun _ => true, fun _ _ => true⟩

example : parseBasicHeader (some sampleHeader)
    = .ok [107, 101, 121] [115, 101, 99] := rfl

example : parseBasicHeader none
    = .fail 401 (.unauthorized "missing Authorization header") := rfl

example : parseBasicHeader (some [66, 97, 115, 105, 99, 32, 33, 33, 33, 33])
    = .fail 401 (.unauthorized "invalid base64 encoding") := rfl

/-! ## Claim C5: a malformed stored hash is an internal error -/

/-- C5: when the credential chain reaches a found active row whose stored
hash record fails to parse, the authenticator fails with the internal
error that the 500 catcher renders as `INTERNAL_ERROR` — not 401 — and
the outcome is distinct from the wrong-secret outcome (401,
`invalid credentials`). -/
theorem c5_malformed_hash_is_internal (env env' : AuthEnv) (rpm : Nat)
    (pkP : Bool) (header : Option (List Nat)) (k s : List Nat)
    (row : ApiKeyRow) (ctx : ReqCtx) (pk : PerKeyState) (now nowUnix : Nat)
    (hparse : parseBasicHeader header = .ok k s)
    (hdb : env.dbError = false)
    (hlook : lookupActive env.db k = some row)
    (hhash : env.hashParses row.secret_hash = false)
    (hdb' : env'.dbError = false)
    (hlook' : lookupActive env'.db k = some row)
    (hhash' : env'.hashParses row.secret_hash = true)
    (hverify' : env'.verifyOk s row.secret_hash = false) :
    authGuardStep env rpm pkP header ctx pk now nowUnix
        = (.error 500 (.internal "authentication check failed"), ctx, pk)
    ∧ (catcherResponse 500).status = 500
    ∧ (catcherResponse 500).errorCode = some "INTERNAL_ERROR"
    ∧ (catcherResponse 500).status ≠ 401
    ∧ authGuardStep env' rpm pkP header ctx pk now nowUnix
        = (.error 401 (.unauthorized "invalid credentials"), ctx, pk)
    ∧ authGuardStep env rpm pkP header ctx pk now nowUnix
        ≠ authGuardStep env' rpm pkP header ctx pk now nowUnix := by
  have h1 : authGuardStep env rpm pkP header ctx pk now nowUnix
      = (.error 500 (.internal "authentication check failed"), ctx, pk) := by
    simp [authGuardStep, hparse, hdb, hlook, hhash]
  have h2 : authGuardStep env' rpm pkP header ctx pk now nowUnix
      = (.error 401 (.unauthorized "invalid credentials"), ctx, pk) := by
    simp [authGuardStep, hparse, hdb', hlook', hhash', hverify']
  refine ⟨h1, rfl, rfl, by decide, h2, ?_⟩
  rw [h1, h2]
  simp

/-- C5 witness: the sample row with an unparsable stored hash. -/
theorem c5_malformed_hash_is_internal_witness :
    authGuardStep envBadHash 10 false (some sampleHeader) ⟨none, none⟩ ⟨[], 0⟩ 5 5
        = (.error 500 (.internal "authentication check failed"),
            ⟨none, none⟩, ⟨[], 0⟩)
    ∧ (catcherResponse 500).status = 500
    ∧ (catcherResponse 500).errorCode = some "INTERNAL_ERROR"
    ∧ (catcherResponse 500).status ≠ 401
    ∧ authGuardStep envWrongSecret 10 false (some sampleHeader) ⟨none, none⟩ ⟨[], 0⟩ 5 5
        = (.error 401 (.unauthorized "invalid credentials"),
            ⟨none, none⟩, ⟨[], 0⟩)
    ∧ authGuardStep envBadHash 10 false (some sampleHeader) ⟨none, none⟩ ⟨[], 0⟩ 5 5
        ≠ authGuardStep envWrongSecret 10 false (some sampleHeader) ⟨none, none⟩ ⟨[], 0⟩ 5 5 :=
  c5_malformed_hash_is_internal envBadHash envWrongSecret 10 false
    (some sampleHeader) [107, 101, 121] [115, 101, 99] sampleRow
    ⟨none, none⟩ ⟨[], 0⟩ 5 5 rfl rfl rfl rfl rfl rfl rfl rfl

/-! ## Claim C6: unknown key and wrong secret are indistinguishable -/

/-- C6: an unknown-or-inactive key and a known active key with a wrong
secret are externally indistinguishable: the auth guard rejects both with
the identical outcome — 401, `invalid credentials`, the request context
and limiter state untouched — and the 401 catcher renders the one generic
body for both. -/
theorem c6_auth_failures_indistinguishable (envA envB : AuthEnv) (rpm : Nat)
    (pkP : Bool) (headerA headerB : Option (List Nat))
    (kA sA kB sB : List Nat) (rowB : ApiKeyRow) (ctx : ReqCtx)
    (pk : PerKeyState) (now nowUnix : Nat)
    (hpA : parseBasicHeader headerA = .ok kA sA)
    (hdbA : envA.dbError = false)
    (hlookA : lookupActive envA.db kA = none)
    (hpB : parseBasicHeader headerB = .ok kB sB)
    (hdbB : envB.dbError = false)
    (hlookB : lookupActive envB.db kB = some rowB)
    (hhB : envB.hashParses rowB.secret_hash = true)
    (hvB : envB.verifyOk sB rowB.secret_hash = false) :
    authGuardStep envA rpm pkP headerA ctx pk now nowUnix
        = (.error 401 (.unauthorized "invalid credentials"), ctx, pk)
    ∧ authGuardStep envB rpm pkP headerB ctx pk now nowUnix
        = authGuardStep envA rpm pkP headerA ctx pk now nowUnix
    ∧ catcherResponse 401
        = ⟨401, some "UNAUTHORIZED", some "Missing or invalid credentials",
            none, none, none, none⟩ := by
  have hA : authGuardStep envA rpm pkP headerA ctx pk now nowUnix
      = (.error 401 (.unauthorized "invalid credentials"), ctx, pk) := by
    simp [authGuardStep, hpA, hdbA, hlookA]
  have hB : authGuardStep envB rpm pkP headerB ctx pk now nowUnix
      = (.error 401 (.unauthorized "invalid credentials"), ctx, pk) := by
    simp [authGuardStep, hpB, hdbB, hlookB, hhB, hvB]
  exact ⟨hA, by rw [hA, hB], rfl⟩

/-- C6 witness: an empty table versus the sample row with a rejecting
verifier, both presented the same credentials. -/
theorem c6_auth_failures_indistinguishable_witness :
    authGuardStep envUnknownKey 10 false (some sampleHeader) ⟨none, none⟩ ⟨[], 0⟩ 5 5
        = (.error 401 (.unauthorized "invalid credentials"),
            ⟨none, none⟩, ⟨[], 0⟩)
    ∧ authGuardStep envWrongSecret 10 false (some sampleHeader) ⟨none, none⟩ ⟨[], 0⟩ 5 5
        = authGuardStep envUnknownKey 10 false (some sampleHeader) ⟨none, none⟩ ⟨[], 0⟩ 5 5
    ∧ catcherResponse 401
        = ⟨401, some "UNAUTHORIZED", some "Missing or invalid credentials",
            none, none, none, none⟩ :=
  c6_auth_failures_indistinguishable envUnknownKey envWrongSecret 10 false
    (some sampleHeader) (some sampleHeader) [107, 101, 121] [115, 101, 99]
    [107, 101, 121] [115, 101, 99] sampleRow ⟨none, none⟩ ⟨[], 0⟩ 5 5
    rfl rfl rfl rfl rfl rfl rfl rfl

/-! ## Claim C1: rate-limit headers on 401 responses -/

theorem cacheInfo_authKeyId (ctx : ReqCtx) (info : Option RateLimitInfo) :
    (cacheInfo ctx info).authKeyId = ctx.authKeyId := by
  cases info <;> rfl

/-- An auth-guard run that fails with 401 does not touch the
request-local cache. -/
theorem authGuard_401_preserves_ctx (env : AuthEnv) (rpm : Nat) (pkP : Bool)
    (header : Option (List Nat)) (ctx : ReqCtx) (pk : PerKeyState)
    (now nowUnix : Nat) (e : ApiError) (ctx2 : ReqCtx) (pk' : PerKeyState)
    (h : authGuardStep env rpm pkP header ctx pk now nowUnix
        = (.error 401 e, ctx2, pk')) :
    ctx2 = ctx := by
  rw [authGuardStep] at h
  repeat' split at h
  all_goals
    first
      | (simp only [Prod.mk.injEq] at h; exact h.2.1.symm)
      | simp at h

/-- A successful global-limit guard run leaves the `AuthKeyId` slot
empty, caches nothing when the global limit is disabled, and caches the
global quota info (with `limit` the configured limit) when it is
enabled. -/
theorem globalGuard_success_cache (rpm : Nat) (w : List Nat)
    (now nowUnix : Nat) (ctx1 : ReqCtx) (gw' : List Nat)
    (h : globalRateLimitGuard rpm false w now nowUnix ⟨none, none⟩
        = (.success (), ctx1, gw')) :
    ctx1.authKeyId = none
    ∧ (rpm = 0 → ctx1.cachedRateInfo = none)
    ∧ (0 < rpm → ∃ rem rst, ctx1.cachedRateInfo = some ⟨rpm, rem, rst⟩) := by
  rw [globalRateLimitGuard] at h
  by_cases h0 : rpm = 0
  · subst h0
    rw [show check_global 0 false w now nowUnix = .ok (true, none, w) from rfl] at h
    simp only [cacheInfo, Prod.mk.injEq] at h
    obtain ⟨-, hctx, -⟩ := h
    rw [← hctx]
    exact ⟨rfl, fun _ => rfl, fun hpos => absurd rfl (Nat.pos_iff_ne_zero.mp hpos)⟩
  · rw [check_global, if_neg h0, if_neg (by simp)] at h
    by_cases hlt : (prune_window w (now - 60)).length < rpm
    · rw [if_pos hlt] at h
      simp only [cacheInfo, Prod.mk.injEq] at h
      obtain ⟨-, hctx, -⟩ := h
      rw [← hctx]
      exact ⟨rfl, fun hz => absurd hz h0, fun _ => ⟨_, _, rfl⟩⟩
    · rw [if_neg hlt] at h
      simp at h

/-- C1 (amended): when the global limit check admits a request to a
protected route and authentication then fails with 401, the response has
HTTP status 401; it carries all three rate-limit headers — populated from
the global scope's quota — whenever the global limit is enabled (> 0),
and carries none of them only when the global limit is 0 (disabled). -/
theorem c1_unauthorized_carries_global_headers (lim : Limits) (env : AuthEnv)
    (pkPoisoned : Bool) (header : Option (List Nat))
    (handlerResult : Except ApiError Unit) (st : ServerState)
    (now nowUnix : Nat) (ctx1 : ReqCtx) (gw' : List Nat)
    (e : ApiError) (ctx2 : ReqCtx) (pk' : PerKeyState)
    (hglobal : globalRateLimitGuard lim.globalRpm false st.globalWindow now nowUnix
        ⟨none, none⟩ = (.success (), ctx1, gw'))
    (hauth : authGuardStep env lim.perKeyRpm pkPoisoned header ctx1 st.perKey
        now nowUnix = (.error 401 e, ctx2, pk')) :
    ∃ r, dispatchProtected lim env false pkPoisoned header handlerResult st now nowUnix
        = .response r ctx2.authKeyId ⟨gw', pk'⟩
      ∧ r.status = 401
      ∧ (0 < lim.globalRpm →
          r.rateLimitLimit = some lim.globalRpm
          ∧ r.rateLimitRemaining.isSome ∧ r.rateLimitReset.isSome)
      ∧ (lim.globalRpm = 0 →
          r.rateLimitLimit = none ∧ r.rateLimitRemaining = none
          ∧ r.rateLimitReset = none) := by
  have hctx2 : ctx2 = ctx1 :=
    authGuard_401_preserves_ctx env lim.perKeyRpm pkPoisoned header ctx1 st.perKey
      now nowUnix e ctx2 pk' hauth
  obtain ⟨hak, hz, hpos⟩ := globalGuard_success_cache lim.globalRpm st.globalWindow
    now nowUnix ctx1 gw' hglobal
  subst hctx2
  have hdisp : dispatchProtected lim env false pkPoisoned header handlerResult st now nowUnix
      = .response (applyRateLimitHeaders ctx2 (catcherResponse 401)) ctx2.authKeyId
          ⟨gw', pk'⟩ := by
    rw [dispatchProtected, hglobal]
    simp only [hauth]
  refine ⟨applyRateLimitHeaders ctx2 (catcherResponse 401), hdisp, ?_, ?_, ?_⟩
  · cases hinfo : ctx2.cachedRateInfo with
    | none => simp [applyRateLimitHeaders, hinfo, catcherResponse]
    | some i => simp [applyRateLimitHeaders, hinfo, catcherResponse]
  · intro hrpm
    obtain ⟨rem, rst, hcache⟩ := hpos hrpm
    simp [applyRateLimitHeaders, hcache]
  · intro hrpm
    simp [applyRateLimitHeaders, hz hrpm, catcherResponse]

/-- C1 witness for the amended theorem: global limit 2, no Authorization
header, fresh state. -/
theorem c1_unauthorized_carries_global_headers_witness :
    ∃ r, dispatchProtected ⟨2, 10000⟩ envTrivial false false none (.ok ())
        ⟨[], ⟨[], 0⟩⟩ 100 1000
      = .response r (ReqCtx.authKeyId ⟨some ⟨2, 1, 1060⟩, none⟩) ⟨[100], ⟨[], 0⟩⟩
      ∧ r.status = 401
      ∧ (0 < 2 →
          r.rateLimitLimit = some 2
          ∧ r.rateLimitRemaining.isSome ∧ r.rateLimitReset.isSome)
      ∧ (2 = 0 →
          r.rateLimitLimit = none ∧ r.rateLimitRemaining = none
          ∧ r.rateLimitReset = none) :=
  c1_unauthorized_carries_global_headers ⟨2, 10000⟩ envTrivial false none (.ok ())
    ⟨[], ⟨[], 0⟩⟩ 100 1000 ⟨some ⟨2, 1, 1060⟩, none⟩ [100]
    (.unauthorized "missing Authorization header") ⟨some ⟨2, 1, 1060⟩, none⟩ ⟨[], 0⟩
    rfl rfl

/-- C1 counterexample to the claim as stated: with global limit 2, an
unauthenticated request admitted by the global check receives a 401 that
carries `X-RateLimit-Limit: 2`, `X-RateLimit-Remaining: 1` and an
`X-RateLimit-Reset` value — not "none of the rate-limit headers". -/
theorem c1_counterexample :
    dispatchProtected ⟨2, 10000⟩ envTrivial false false none (.ok ())
        ⟨[], ⟨[], 0⟩⟩ 100 1000
      = .response
          ⟨401, some "UNAUTHORIZED", some "Missing or invalid credentials",
            none, some 2, some 1, some 1060⟩
          none ⟨[100], ⟨[], 0⟩⟩ := rfl

/-! ## Claim C3: the global limit is consumed before authentication -/

/-- An unauthenticated request to a protected route admitted by the
global check (limit 2): authentication fails with 401 after the global
quota was consumed. -/
theorem dispatch_unauth_admitted (env : AuthEnv) (handler : Except ApiError Unit)
    (gw : List Nat) (pk : PerKeyState) (now nu : Nat)
    (hin : ∀ s ∈ gw, now - 60 ≤ s) (hlen : gw.length < 2) :
    dispatchProtected ⟨2, 10000⟩ env false false none handler ⟨gw, pk⟩ now nu
      = .response
          (applyRateLimitHeaders
            ⟨some ⟨2, 2 - (gw ++ [now]).length, compute_reset (gw ++ [now]) now nu⟩,
              none⟩
            (catcherResponse 401))
          none ⟨gw ++ [now], pk⟩ := by
  have hg : globalRateLimitGuard 2 false gw now nu ⟨none, none⟩
      = (.success (),
          ⟨some ⟨2, 2 - (gw ++ [now]).length, compute_reset (gw ++ [now]) now nu⟩,
            none⟩,
          gw ++ [now]) := by
    rw [globalRateLimitGuard, check_global_admits 2 (by decide) gw now nu hin hlen]
    rfl
  rw [dispatchProtected, hg]
  rfl

/-- An unauthenticated request to a protected route rejected by the
global check (limit 2, window already full). -/
theorem dispatch_unauth_rejected (env : AuthEnv) (handler : Except ApiError Unit)
    (gw : List Nat) (pk : PerKeyState) (now nu : Nat)
    (hin : ∀ s ∈ gw, now - 60 ≤ s) (hlen : ¬ gw.length < 2) :
    dispatchProtected ⟨2, 10000⟩ env false false none handler ⟨gw, pk⟩ now nu
      = .response
          (applyRateLimitHeaders ⟨some ⟨2, 0, compute_reset gw now nu⟩, none⟩
            (catcherResponse 429))
          none ⟨gw, pk⟩ := by
  have hg : globalRateLimitGuard 2 false gw now nu ⟨none, none⟩
      = (.error 429 (.rateLimited "Too many requests, please try again later"),
          ⟨some ⟨2, 0, compute_reset gw now nu⟩, none⟩, gw) := by
    rw [globalRateLimitGuard, check_global_reject 2 (by decide) gw now nu hin hlen]
    rfl
  rw [dispatchProtected, hg]

/-- C3: with global limit 2 and per-key limit 10000, for three successive
unauthenticated requests to a protected route within one window, the
first two receive HTTP 401 and the third receives HTTP 429 with
`Retry-After: 60` and `X-RateLimit-Remaining: 0` (the global check runs
before authentication, so the failed-auth requests consume the quota). -/
theorem c3_global_before_auth_scenario (env : AuthEnv)
    (handler : Except ApiError Unit) (t1 t2 t3 u1 u2 u3 : Nat)
    (h12 : t1 ≤ t2) (h23 : t2 ≤ t3) (h13 : t3 ≤ t1 + 60)
    (r1 r2 r3 : HttpResponse) (a1 a2 a3 : Option Int) (s1 s2 s3 : ServerState)
    (hd1 : dispatchProtected ⟨2, 10000⟩ env false false none handler
        ⟨[], ⟨[], 0⟩⟩ t1 u1 = .response r1 a1 s1)
    (hd2 : dispatchProtected ⟨2, 10000⟩ env false false none handler s1 t2 u2
        = .response r2 a2 s2)
    (hd3 : dispatchProtected ⟨2, 10000⟩ env false false none handler s2 t3 u3
        = .response r3 a3 s3) :
    r1.status = 401 ∧ r2.status = 401 ∧ r3.status = 429
    ∧ r3.retryAfter = some 60 ∧ r3.rateLimitRemaining = some 0 := by
  rw [dispatch_unauth_admitted env handler [] ⟨[], 0⟩ t1 u1 (by simp) (by simp)] at hd1
  simp only [PipelineResult.response.injEq, List.nil_append] at hd1
  obtain ⟨hr1, -, hs1⟩ := hd1
  rw [← hs1] at hd2
  rw [dispatch_unauth_admitted env handler [t1] ⟨[], 0⟩ t2 u2
    (by intro s hs; simp at hs; omega) (by simp)] at hd2
  simp only [PipelineResult.response.injEq, List.cons_append, List.nil_append] at hd2
  obtain ⟨hr2, -, hs2⟩ := hd2
  rw [← hs2] at hd3
  rw [dispatch_unauth_rejected env handler [t1, t2] ⟨[], 0⟩ t3 u3
    (by intro s hs; simp at hs; rcases hs with rfl | rfl <;> omega) (by simp)] at hd3
  simp only [PipelineResult.response.injEq] at hd3
  obtain ⟨hr3, -, -⟩ := hd3
  refine ⟨?_, ?_, ?_, ?_, ?_⟩
  · rw [← hr1]; simp [applyRateLimitHeaders, catcherResponse]
  · rw [← hr2]; simp [applyRateLimitHeaders, catcherResponse]
  · rw [← hr3]; simp [applyRateLimitHeaders, catcherResponse]
  · rw [← hr3]; simp [applyRateLimitHeaders, catcherResponse]
  · rw [← hr3]; simp [applyRateLimitHeaders, catcherResponse]

/-- C3 witness: the three requests at time 100, wall clock 1000. -/
theorem c3_global_before_auth_scenario_witness :
    (⟨401, some "UNAUTHORIZED", some "Missing or invalid credentials",
        none, some 2, some 1, some 1060⟩ : HttpResponse).status = 401
    ∧ (⟨401, some "UNAUTHORIZED", some "Missing or invalid credentials",
        none, some 2, some 0, some 1060⟩ : HttpResponse).status = 401
    ∧ (⟨429, some "RATE_LIMITED", some "Too many requests, please try again later",
        some 60, some 2, some 0, some 1060⟩ : HttpResponse).status = 429
    ∧ (⟨429, some "RATE_LIMITED", some "Too many requests, please try again later",
        some 60, some 2, some 0, some 1060⟩ : HttpResponse).retryAfter = some 60
    ∧ (⟨429, some "RATE_LIMITED", some "Too many requests, please try again later",
        some 60, some 2, some 0, some 1060⟩ : HttpResponse).rateLimitRemaining
        = some 0 :=
  c3_global_before_auth_scenario envTrivial (.ok ()) 100 100 100 1000 1000 1000
    (le_refl 100) (le_refl 100) (by omega)
    ⟨401, some "UNAUTHORIZED", some "Missing or invalid credentials",
      none, some 2, some 1, some 1060⟩
    ⟨401, some "UNAUTHORIZED", some "Missing or invalid credentials",
      none, some 2, some 0, some 1060⟩
    ⟨429, some "RATE_LIMITED", some "Too many requests, please try again later",
      some 60, some 2, some 0, some 1060⟩
    none none none
    ⟨[100], ⟨[], 0⟩⟩ ⟨[100, 100], ⟨[], 0⟩⟩ ⟨[100, 100], ⟨[], 0⟩⟩
    rfl rfl rfl

/-! ## Claim C9: usage records and resolved identities -/

/-- The request resolves an authenticated identity iff credential
extraction, the active-key lookup, stored-hash parsing and secret
verification all succeed; the resolved id is the row's id. -/
def resolvedIdentity (env : AuthEnv) (header : Option (List Nat)) : Option Int :=
  match parseBasicHeader header with
  | .ok k s =>
    if env.dbError then none
    else
      match lookupActive env.db k with
      | some row =>
        if env.hashParses row.secret_hash && env.verifyOk s row.secret_hash
        then some row.id else none
      | none => none
  | _ => none

/-- The identity one request resolves: none when the global limit check
does not admit it (authentication never runs), otherwise
`resolvedIdentity`. -/
def requestResolvedIdentity (lim : Limits) (env : AuthEnv) (gP : Bool)
    (header : Option (List Nat)) (st : ServerState) (now nowUnix : Nat) :
    Option Int :=
  match (globalRateLimitGuard lim.globalRpm gP st.globalWindow now nowUnix
      ⟨none, none⟩).1 with
  | .success _ => resolvedIdentity env header
  | _ => none

theorem globalGuard_preserves_authKeyId (rpm : Nat) (p : Bool) (w : List Nat)
    (now nu : Nat) (ctx : ReqCtx) :
    (globalRateLimitGuard rpm p w now nu ctx).2.1.authKeyId = ctx.authKeyId := by
  rw [globalRateLimitGuard]
  cases check_global rpm p w now nu with
  | error e => rfl
  | ok v =>
    obtain ⟨adm, info, w'⟩ := v
    cases adm <;> simp [cacheInfo_authKeyId]

/-- The auth guard leaves the `AuthKeyId` slot holding exactly the
resolved identity (starting from an empty slot). -/
theorem authGuard_authKeyId (env : AuthEnv) (rpm : Nat) (pkP : Bool)
    (header : Option (List Nat)) (ctx : ReqCtx) (pk : PerKeyState)
    (now nu : Nat) (hak : ctx.authKeyId = none) :
    (authGuardStep env rpm pkP header ctx pk now nu).2.1.authKeyId
      = resolvedIdentity env header := by
  rw [authGuardStep, resolvedIdentity]
  cases hp : parseBasicHeader header with
  | panicked => exact hak
  | fail s e => exact hak
  | ok k s =>
    by_cases hdb : env.dbError
    · simp [hdb, hak]
    · simp only [hdb, Bool.false_eq_true, if_false]
      cases hl : lookupActive env.db k with
      | none => exact hak
      | some row =>
        by_cases hh : env.hashParses row.secret_hash
        · by_cases hv : env.verifyOk s row.secret_hash
          · cases hc : check_per_key rpm pkP pk row.id now nu with
            | error e => simp [hh, hv, hc, cacheAuthKeyId, hak]
            | ok v =>
              obtain ⟨adm, info, pk'⟩ := v
              cases adm <;>
                simp [hh, hv, hc, cacheInfo_authKeyId, cacheAuthKeyId, hak]
          · simp [hh, hv, hak]
        · simp [hh, hak]

/-- C9: for every completed (non-panicking) request to the protected
route, a usage row is recorded iff the request resolved an authenticated
identity: the recorded id equals the resolved identity, which is none
whenever the global check rejected or any credential step failed, and is
the key's id whenever authentication succeeded — even if the per-key
stage then rejected the request. -/
theorem c9_usage_iff_identity (lim : Limits) (env : AuthEnv)
    (gP pkP : Bool) (header : Option (List Nat))
    (handler : Except ApiError Unit) (st : ServerState) (now nowUnix : Nat)
    (r : HttpResponse) (rec : Option Int) (st' : ServerState)
    (h : dispatchProtected lim env gP pkP header handler st now nowUnix
        = .response r rec st') :
    rec = requestResolvedIdentity lim env gP header st now nowUnix := by
  rw [dispatchProtected] at h
  rw [requestResolvedIdentity]
  rcases hgv : globalRateLimitGuard lim.globalRpm gP st.globalWindow now nowUnix
      ⟨none, none⟩ with ⟨o1, ctx1, gw'⟩
  have hak1 : ctx1.authKeyId = none := by
    have hp := globalGuard_preserves_authKeyId lim.globalRpm gP st.globalWindow
      now nowUnix ⟨none, none⟩
    rw [hgv] at hp
    exact hp
  rw [hgv] at h
  cases o1 with
  | panicked => simp at h
  | error s e =>
    simp only [PipelineResult.response.injEq] at h
    rw [← h.2.1, hak1]
  | success a =>
    dsimp only at h
    rcases hav : authGuardStep env lim.perKeyRpm pkP header ctx1 st.perKey
        now nowUnix with ⟨o2, ctx2, pk'⟩
    have hak2 : ctx2.authKeyId = resolvedIdentity env header := by
      have hp := authGuard_authKeyId env lim.perKeyRpm pkP header ctx1 st.perKey
        now nowUnix hak1
      rw [hav] at hp
      exact hp
    rw [hav] at h
    cases o2 with
    | panicked => simp at h
    | error s e =>
      simp only [PipelineResult.response.injEq] at h
      rw [← h.2.1, hak2]
    | success k =>
      cases handler with
      | ok u =>
        simp only [PipelineResult.response.injEq] at h
        rw [← h.2.1, hak2]
      | error e =>
        simp only [PipelineResult.response.injEq] at h
        rw [← h.2.1, hak2]

/-- Environment in which the sample row authenticates successfully. -/
def envAllOk : AuthEnv := ⟨[sampleRow], false, fun _ => true, fun _ _ => true⟩

/-- C9 witness: a successfully authenticated request (global limit 2,
per-key limit 1) records the sample key's id 7, matching the resolved
identity. -/
theorem c9_usage_iff_identity_witness :
    some (7 : Int)
      = requestResolvedIdentity ⟨2, 1⟩ envAllOk false (some sampleHeader)
          ⟨[], ⟨[], 0⟩⟩ 100 1000 :=
  c9_usage_iff_identity ⟨2, 1⟩ envAllOk false false (some sampleHeader) (.ok ())
    ⟨[], ⟨[], 0⟩⟩ 100 1000
    ⟨200, none, none, none, some 1, some 0, some 1060⟩ (some 7)
    ⟨[100], ⟨[(7, [100])], 1⟩⟩ rfl

end St0x
